import Mathlib

/-!
# Verification of the `finbr.dias_uteis` business-day calendar

Shallow embedding of `src/finbr/dias_uteis` (`__init__.py`, `base.py`,
`holidays.py`).  Dates are represented by their proleptic Gregorian ordinals,
exactly CPython's `datetime.date.toordinal()` encoding: 0001-01-01 is ordinal 1
and 9999-12-31 is ordinal 3652059.  The ordinal encoding is a strictly
monotone bijection from valid `(year, month, day)` triples, so Python date
equality/ordering becomes `Nat` equality/ordering, `date + timedelta(days=k)`
becomes `+ k` (raising OverflowError when leaving `1 .. 3652059`), `date.year`
becomes `yearOf`, and `date(y, m, d)` becomes `ymd2ord y m d`.

Python exceptions escaping the module are modelled with `Except CalError`.
-/

namespace Finbr

/-- Leap-year test, as CPython `datetime._is_leap`. -/
def isLeap (y : Nat) : Bool := y % 4 == 0 && (y % 100 != 0 || y % 400 == 0)

/-- Length of month `m` of year `y`, as CPython `datetime._days_in_month`. -/
def daysInMonth (y m : Nat) : Nat :=
  if m = 2 then (if isLeap y then 29 else 28)
  else if m = 4 ∨ m = 6 ∨ m = 9 ∨ m = 11 then 30
  else 31

/-- Days before month `m` in a non-leap year (CPython `_DAYS_BEFORE_MONTH`). -/
def daysBeforeMonthBase (m : Nat) : Nat :=
  match m with
  | 1 => 0 | 2 => 31 | 3 => 59 | 4 => 90 | 5 => 120 | 6 => 151
  | 7 => 181 | 8 => 212 | 9 => 243 | 10 => 273 | 11 => 304 | _ => 334

/-- Days in year `y` before month `m`, as CPython `datetime._days_before_month`. -/
def daysBeforeMonth (y m : Nat) : Nat :=
  daysBeforeMonthBase m + (if 2 < m ∧ isLeap y then 1 else 0)

/-- Days before January 1 of year `y`, as CPython `datetime._days_before_year`. -/
def daysBeforeYear (y : Nat) : Nat :=
  365 * (y - 1) + (y - 1) / 4 - (y - 1) / 100 + (y - 1) / 400

/-- CPython `date.toordinal()`: the proleptic Gregorian ordinal of `(y, m, d)`. -/
def ymd2ord (y m d : Nat) : Nat := daysBeforeYear y + daysBeforeMonth y m + d

/-- Ordinal of `datetime.date.max = 9999-12-31`, the last representable date. -/
def maxOrdinal : Nat := 3652059

/-- CPython `date.weekday()` on ordinals: Monday = 0 .. Sunday = 6. -/
def weekday (o : Nat) : Nat := (o + 6) % 7

/-- Year of the date with ordinal `o`: the year component of CPython
`datetime._ord2ymd`'s 400/100/4/1-year decomposition. -/
def yearOf (o : Nat) : Nat :=
  let n := o - 1
  let n400 := n / 146097
  let r400 := n % 146097
  let n100 := r400 / 36524
  let r100 := r400 % 36524
  let n4 := r100 / 1461
  let r4 := r100 % 1461
  let n1 := r4 / 365
  let year := n400 * 400 + n100 * 100 + n4 * 4 + n1 + 1
  if n1 = 4 ∨ n100 = 4 then year - 1 else year

/-- The quantity `h + l - 7 * m + 114` of the Meeus/Jones/Butcher computation
in `holidays._calc_pascoa`.  Every intermediate value is nonnegative for every
`year` (established below), so `Nat` division, remainder and truncated
subtraction agree with Python's exact integer arithmetic. -/
def pascoaT (year : Nat) : Nat :=
  let a := year % 19
  let b := year / 100
  let c := year % 100
  let d := b / 4
  let e := b % 4
  let f := (b + 8) / 25
  let g := (b - f + 1) / 3
  let h := (19 * a + b - d - g + 15) % 30
  let i := c / 4
  let k := c % 4
  let l := (32 + 2 * e + 2 * i - h - k) % 7
  let m := (a + 11 * h + 22 * l) / 451
  h + l - 7 * m + 114

/-- Easter month in `_calc_pascoa`: `(h + l - 7*m + 114) // 31`. -/
def pascoaMonth (year : Nat) : Nat := pascoaT year / 31

/-- Easter day in `_calc_pascoa`: `((h + l - 7*m + 114) % 31) + 1`. -/
def pascoaDay (year : Nat) : Nat := pascoaT year % 31 + 1

/-- `holidays._calc_pascoa` as an ordinal. -/
def calcPascoa (year : Nat) : Nat := ymd2ord year (pascoaMonth year) (pascoaDay year)

/-- `holidays._delta_pascoa`: Easter of `year` plus a signed day offset.  For
the offsets used by the registry (−48, −47, −2, +60) the result never leaves
the calendar, so the `timedelta` addition never raises. -/
def deltaPascoa (year : Nat) (delta : Int) : Nat := ((calcPascoa year : Int) + delta).toNat

/-- A holiday rule (`base.Holiday`): either a fixed month/day with an optional
`[start_year, end_year]` validity window, or a dynamic rule.  Every dynamic
rule of this repository is `partial(_delta_pascoa, delta=k)`, so the dynamic
variant carries just the Easter offset `k`. -/
inductive Holiday where
  | fixed (month day : Nat) (startYear endYear : Option Nat)
  | pascoaDelta (delta : Int)
deriving DecidableEq

/-- `Holiday.calc_for_year` for a year already known to be valid (for other
years CPython raises ValueError before reaching this logic; the wrappers below
model that). -/
def calcForYear (h : Holiday) (year : Nat) : Option Nat :=
  match h with
  | .fixed month day sy ey =>
    if (match sy with | some s => decide (year < s) | none => false) then none
    else if (match ey with | some e => decide (e < year) | none => false) then none
    else some (ymd2ord year month day)
  | .pascoaDelta delta => some (deltaPascoa year delta)

/-- `holidays.NATIONAL_HOLIDAYS`, in source order. -/
def NATIONAL_HOLIDAYS : List Holiday :=
  [ .fixed 1 1 none none
  , .pascoaDelta (-48)
  , .pascoaDelta (-47)
  , .pascoaDelta (-2)
  , .fixed 4 21 none none
  , .fixed 5 1 none none
  , .pascoaDelta 60
  , .fixed 9 7 none none
  , .fixed 10 12 none none
  , .fixed 11 2 none none
  , .fixed 11 15 none none
  , .fixed 11 20 (some 2024) none
  , .fixed 12 25 none none ]

/-- Python exceptions crossing the `dias_uteis` API: ValueError on an invalid
year (spec: `InvalidYear`), OverflowError on date arithmetic leaving the
calendar, ValueError `'date' is not a business day` (spec: `NotBusinessDay`),
and IndexError from the merged-list lookup (spec: `OffsetOutOfRange`). -/
inductive CalError where
  | invalidYear | overflow | notBusinessDay | offsetOutOfRange
deriving DecidableEq

instance {ε α : Type} [DecidableEq ε] [DecidableEq α] : DecidableEq (Except ε α) := fun
  | .ok a, .ok b =>
    if h : a = b then .isTrue (by rw [h]) else .isFalse (by intro hc; cases hc; exact h rfl)
  | .error a, .error b =>
    if h : a = b then .isTrue (by rw [h]) else .isFalse (by intro hc; cases hc; exact h rfl)
  | .ok _, .error _ => .isFalse (by intro hc; cases hc)
  | .error _, .ok _ => .isFalse (by intro hc; cases hc)

/-- The resolved holiday dates of `year`: `_get_year_holidays`' result list. -/
def holidaysOf (year : Nat) (hs : List Holiday) : List Nat :=
  hs.filterMap (fun h => calcForYear h year)

/-- `_get_year_holidays`.  Each `calc_for_year` call validates the year via
`datetime.date(year, 1, 1)`, raising ValueError outside `1 .. 9999`; with a
non-empty rule list that is one up-front validity check. -/
def getYearHolidays (year : Nat) (hs : List Holiday) : Except CalError (List Nat) :=
  if 1 ≤ year ∧ year ≤ 9999 then .ok (holidaysOf year hs) else .error .invalidYear

/-- The list built by `_get_year_dus`' scan from Jan 1 to Dec 31: the ordinal
interval filtered by the weekday test and holiday membership. -/
def yearDusList (year : Nat) (yh : List Nat) : List Nat :=
  (List.range' (ymd2ord year 1 1) (ymd2ord year 12 31 + 1 - ymd2ord year 1 1)).filter
    (fun o => decide (weekday o < 5) && !(yh.contains o))

/-- `_get_year_dus`.  The scan's final `date += timedelta(days=1)` runs after
Dec 31 has been processed, and overflows (OverflowError) when Dec 31 of `year`
is the last representable date — i.e. for year 9999 the complete list is built
and then lost to the exception. -/
def getYearDus (year : Nat) (hs : List Holiday) : Except CalError (List Nat) := do
  let yh ← if hs.isEmpty then .ok [] else getYearHolidays year hs
  if 1 ≤ year ∧ year ≤ 9999 then
    if ymd2ord year 12 31 < maxOrdinal then .ok (yearDusList year yh)
    else .error .overflow
  else .error .invalidYear

/-- `_get_years_between_two_dates` on ordinals.  For `e ≤ s` Python builds the
descending `range(s.year, e.year - 1, -1)` and sorts it, which is the ascending
interval of years; both branches are ascending intervals. -/
def getYearsBetweenTwoDates (s e : Nat) : List Nat :=
  if e > s then List.range' (yearOf s) (yearOf e + 1 - yearOf s)
  else List.range' (yearOf e) (yearOf s + 1 - yearOf e)

/-- `_get_all_dus_for_years`: concatenation of each year's business days,
propagating the first exception. -/
def getAllDusForYears (years : List Nat) : Except CalError (List Nat) :=
  years.foldlM (fun acc y => do
    let l ← getYearDus y NATIONAL_HOLIDAYS
    pure (acc ++ l)) []

/-- `is_du` (spec: `is_business_day`): membership in the ordinal's own year's
business-day list.  (The `datetime.datetime` truncation branch is the identity
on plain dates.) -/
def is_du (o : Nat) : Except CalError Bool := do
  let l ← getYearDus (yearOf o) NATIONAL_HOLIDAYS
  pure (l.contains o)

/-- `delta_du` (spec: `offset`).  `from_date + timedelta(days=±days_delta*4)`
raises OverflowError when the result leaves `1 .. maxOrdinal`; the model checks
the two window ends in the same order as the Python source.
`all_dus[date_position + days_delta]` is Python list indexing: a nonnegative
index below the length reads normally, a negative index of magnitude at most
the length reads from the end, anything else raises IndexError. -/
def delta_du (fromDate : Nat) (daysDelta : Int) : Except CalError Nat := do
  let b ← is_du fromDate
  if !b then .error .notBusinessDay
  else
    let startC : Int := (fromDate : Int) + (-daysDelta) * 4
    let endC : Int := (fromDate : Int) + daysDelta * 4
    if startC < 1 ∨ (maxOrdinal : Int) < startC then .error .overflow
    else if endC < 1 ∨ (maxOrdinal : Int) < endC then .error .overflow
    else do
      let allDus ← getAllDusForYears (getYearsBetweenTwoDates startC.toNat endC.toNat)
      let idx : Int := (allDus.indexOf fromDate : Int) + daysDelta
      if 0 ≤ idx ∧ idx < (allDus.length : Int) then .ok (allDus.getD idx.toNat 0)
      else if -(allDus.length : Int) ≤ idx ∧ idx < 0 then
        .ok (allDus.getD ((allDus.length : Int) + idx).toNat 0)
      else .error .offsetOutOfRange

/-- `range_du` (spec: `range`). -/
def range_du (start stop : Nat) (includeEnd : Bool) : Except CalError (List Nat) := do
  let allDus ← getAllDusForYears (getYearsBetweenTwoDates start stop)
  if includeEnd then .ok (allDus.filter (fun du => start ≤ du && du ≤ stop))
  else .ok (allDus.filter (fun du => start ≤ du && du < stop))

/-- `year_dus` (spec: `year_business_days`). -/
def year_dus (year : Nat) : Except CalError (List Nat) :=
  range_du (ymd2ord year 1 1) (ymd2ord year 12 31) true

/-- `year_holidays`. -/
def year_holidays (year : Nat) : Except CalError (List Nat) :=
  getYearHolidays year NATIONAL_HOLIDAYS

/-- `diff`: signed count of business days in the inclusive window. -/
def diff (a b : Nat) : Except CalError Int := do
  let ymin := min (yearOf a) (yearOf b)
  let ymax := max (yearOf a) (yearOf b)
  let allDus ← getAllDusForYears (List.range' ymin (ymax + 1 - ymin))
  let dus := allDus.filter (fun o => min a b ≤ o && o ≤ max a b)
  pure (((dus.length : Int) - 1) * (if b > a then 1 else -1))

/-- The pointwise business-day predicate on ordinals: weekday Mon..Fri and not
a resolved holiday of the ordinal's own year. -/
def busPred (o : Nat) : Bool :=
  decide (weekday o < 5) && !((holidaysOf (yearOf o) NATIONAL_HOLIDAYS).contains o)

/-- Number of business days in the half-open ordinal interval `[a, b)`. -/
def duCount (a b : Nat) : Nat := ((List.range' a (b - a)).filter busPred).length

/-- Global business-day index of ordinal `o`: business days in `[1, o)`. -/
def rank (o : Nat) : Nat := duCount 1 o

/-- `_calc_pascoa`'s `h + l - 7*m + 114` recomputed with Python's exact integer
arithmetic (`Int` with floor division and floor remainder, which for the
nonnegative operands occurring here are `Int` `/` and `%`). -/
def pascoaTInt (year : Nat) : Int :=
  let a : Int := (year : Int) % 19
  let b : Int := (year : Int) / 100
  let c : Int := (year : Int) % 100
  let d : Int := b / 4
  let e : Int := b % 4
  let f : Int := (b + 8) / 25
  let g : Int := (b - f + 1) / 3
  let h : Int := (19 * a + b - d - g + 15) % 30
  let i : Int := c / 4
  let k : Int := c % 4
  let l : Int := (32 + 2 * e + 2 * i - h - k) % 7
  let m : Int := (a + 11 * h + 22 * l) / 451
  h + l - 7 * m + 114

/-! ## Calendar arithmetic facts -/

theorem isLeap_iff (y : Nat) : isLeap y = true ↔ (y % 4 = 0 ∧ (y % 100 ≠ 0 ∨ y % 400 = 0)) := by
  simp [isLeap, Bool.and_eq_true, Bool.or_eq_true]

theorem jan1_eq (y : Nat) : ymd2ord y 1 1 = daysBeforeYear y + 1 := by
  simp [ymd2ord, daysBeforeMonth, daysBeforeMonthBase]

/-- Years have 365 days, or 366 in a leap year. -/
theorem yearLen_eq (y : Nat) (hy : 1 ≤ y) :
    daysBeforeYear (y + 1) = daysBeforeYear y + 365 + (if isLeap y then 1 else 0) := by
  obtain ⟨z, rfl⟩ : ∃ z, y = z + 1 := ⟨y - 1, by omega⟩
  have hL := isLeap_iff (z + 1)
  simp only [daysBeforeYear, Nat.add_sub_cancel, hL]
  rw [Nat.succ_div, Nat.succ_div, Nat.succ_div]
  split_ifs <;> omega

/-- Dec 31 of year `y` is the day before Jan 1 of year `y + 1`. -/
theorem dec31_eq (y : Nat) (hy : 1 ≤ y) : ymd2ord y 12 31 = daysBeforeYear (y + 1) := by
  have h12 : daysBeforeMonth y 12 = 334 + (if isLeap y then 1 else 0) := by
    have h : ((2:Nat) < 12) := by omega
    simp [daysBeforeMonth, daysBeforeMonthBase, h]
  have hyl := yearLen_eq y hy
  simp only [ymd2ord, h12]
  omega

theorem daysBeforeYear_step (y : Nat) : daysBeforeYear y ≤ daysBeforeYear (y + 1) := by
  rcases y with _ | z
  · simp [daysBeforeYear]
  · have := yearLen_eq (z + 1) (by omega)
    split_ifs at this <;> omega

theorem daysBeforeYear_mono {y z : Nat} (h : y ≤ z) : daysBeforeYear y ≤ daysBeforeYear z := by
  induction z with
  | zero => simp_all
  | succ n ih =>
    rcases Nat.lt_or_ge y (n + 1) with h' | h'
    · exact le_trans (ih (by omega)) (daysBeforeYear_step n)
    · have : y = n + 1 := by omega
      subst this; rfl

/-- Year separation: consecutive year starts differ by at least 365 days. -/
theorem daysBeforeYear_sep {y z : Nat} (hy : 1 ≤ y) (h : y < z) :
    daysBeforeYear y + 365 ≤ daysBeforeYear z := by
  have h1 := yearLen_eq y hy
  have h2 := daysBeforeYear_mono (show y + 1 ≤ z from h)
  split_ifs at h1 <;> omega

theorem yearOf_char_aux (o Y n400 n100 n4 n1 r400 r100 r4 rr : Nat)
    (ho : 1 ≤ o)
    (d1 : o - 1 = 146097 * n400 + r400) (b1 : r400 < 146097)
    (d2 : r400 = 36524 * n100 + r100) (b2 : r100 < 36524)
    (d3 : r100 = 1461 * n4 + r4) (b3 : r4 < 1461)
    (d4 : r4 = 365 * n1 + rr) (b4 : rr < 365)
    (hY : Y = if n1 = 4 ∨ n100 = 4 then n400 * 400 + n100 * 100 + n4 * 4 + n1 + 1 - 1
          else n400 * 400 + n100 * 100 + n4 * 4 + n1 + 1) :
    1 ≤ Y ∧ daysBeforeYear Y < o ∧ o ≤ daysBeforeYear (Y + 1) := by
  subst hY
  split_ifs with h
  · rw [Nat.add_sub_cancel]
    rcases h with h1 | h100
    · have e1 : r4 = 1460 ∧ rr = 0 := by omega
      have e2 : n4 ≤ 23 := by omega
      have e3 : n100 ≤ 3 := by omega
      have e4 : o = 146097 * n400 + 36524 * n100 + 1461 * n4 + 1461 := by omega
      subst h1
      clear d1 d2 d3 d4 b1 b2 b3 b4 ho e1
      simp only [daysBeforeYear]
      omega
    · have e1 : r400 = 146096 := by omega
      have e2 : r100 = 0 ∧ n4 = 0 ∧ r4 = 0 ∧ n1 = 0 ∧ rr = 0 := by omega
      have e4 : o = 146097 * n400 + 146097 := by omega
      subst h100
      obtain ⟨-, rfl, -, rfl, -⟩ := e2
      clear d1 d2 d3 d4 b1 b2 b3 b4 ho e1
      simp only [daysBeforeYear]
      omega
  · push_neg at h
    have e1 : n100 ≤ 3 := by omega
    have e2 : n4 ≤ 24 := by omega
    have e3 : n1 ≤ 3 := by omega
    have e4 : o = 146097 * n400 + 36524 * n100 + 1461 * n4 + 365 * n1 + rr + 1 := by omega
    clear d1 d2 d3 d4 b1 b2 b3 ho h
    simp only [daysBeforeYear]
    omega

/-- `yearOf` is correct: ordinal `o` lies inside year `yearOf o`. -/
theorem yearOf_char (o : Nat) (ho : 1 ≤ o) :
    1 ≤ yearOf o ∧ daysBeforeYear (yearOf o) < o ∧ o ≤ daysBeforeYear (yearOf o + 1) := by
  refine yearOf_char_aux o (yearOf o) ((o-1)/146097) ((o-1)%146097/36524)
      ((o-1)%146097%36524/1461) ((o-1)%146097%36524%1461/365)
      ((o-1)%146097) ((o-1)%146097%36524) ((o-1)%146097%36524%1461)
      ((o-1)%146097%36524%1461%365) ho (by omega) (by omega) (by omega) (by omega)
      (by omega) (by omega) (by omega) (by omega) rfl

/-- `yearOf` is the unique year whose interval contains `o`. -/
theorem yearOf_eq {y o : Nat} (hy : 1 ≤ y)
    (h1 : daysBeforeYear y < o) (h2 : o ≤ daysBeforeYear (y + 1)) : yearOf o = y := by
  have hc := yearOf_char o (by omega)
  by_contra hne
  rcases Nat.lt_or_ge (yearOf o) y with hlt | hge
  · have := daysBeforeYear_mono (show yearOf o + 1 ≤ y from by omega)
    omega
  · have hgt : y < yearOf o := by omega
    have := daysBeforeYear_mono (show y + 1 ≤ yearOf o from by omega)
    have hs := daysBeforeYear_sep hy hgt
    omega

theorem yearOf_mono {a b : Nat} (ha : 1 ≤ a) (h : a ≤ b) : yearOf a ≤ yearOf b := by
  have hca := yearOf_char a ha
  have hcb := yearOf_char b (by omega)
  by_contra hlt
  have : yearOf b + 1 ≤ yearOf a := by omega
  have := daysBeforeYear_mono this
  omega

theorem maxOrdinal_eq : maxOrdinal = daysBeforeYear 10000 := by decide

/-- Ordinals up to `maxOrdinal` belong to years `1 .. 9999`. -/
theorem yearOf_le (o : Nat) (ho : 1 ≤ o) (hm : o ≤ maxOrdinal) : yearOf o ≤ 9999 := by
  have hc := yearOf_char o ho
  by_contra hgt
  have : (10000 : Nat) ≤ yearOf o := by omega
  have := daysBeforeYear_mono this
  rw [maxOrdinal_eq] at hm
  omega

/-- A date of year `y` (valid `y`) has `yearOf` equal to `y`. -/
theorem yearOf_of_range {y o : Nat} (hy : 1 ≤ y)
    (h1 : ymd2ord y 1 1 ≤ o) (h2 : o ≤ ymd2ord y 12 31) : yearOf o = y := by
  rw [jan1_eq] at h1
  rw [dec31_eq y hy] at h2
  exact yearOf_eq hy (by omega) h2

/-! ## Easter facts -/

/-- The extra day a leap year inserts before March. -/
def leapAdj (y : Nat) : Nat := if isLeap y then 1 else 0

theorem daysBeforeMonth_eval (y : Nat) :
    daysBeforeMonth y 1 = 0 ∧ daysBeforeMonth y 3 = 59 + leapAdj y ∧
    daysBeforeMonth y 4 = 90 + leapAdj y ∧ daysBeforeMonth y 5 = 120 + leapAdj y ∧
    daysBeforeMonth y 9 = 243 + leapAdj y ∧ daysBeforeMonth y 10 = 273 + leapAdj y ∧
    daysBeforeMonth y 11 = 304 + leapAdj y ∧ daysBeforeMonth y 12 = 334 + leapAdj y := by
  norm_num [daysBeforeMonth, daysBeforeMonthBase, leapAdj]

/-- The `Nat` and the Python-exact `Int` evaluations of the Meeus/Jones/Butcher
quantity agree: no truncated subtraction in `pascoaT` ever clips. -/
theorem pascoaT_int_eq (year : Nat) : pascoaTInt year = (pascoaT year : Int) := by
  obtain ⟨a, ha⟩ : ∃ x, year % 19 = x := ⟨_, rfl⟩
  obtain ⟨b, hb⟩ : ∃ x, year / 100 = x := ⟨_, rfl⟩
  obtain ⟨c, hc⟩ : ∃ x, year % 100 = x := ⟨_, rfl⟩
  obtain ⟨d, hd⟩ : ∃ x, b / 4 = x := ⟨_, rfl⟩
  obtain ⟨e, he⟩ : ∃ x, b % 4 = x := ⟨_, rfl⟩
  obtain ⟨f, hf⟩ : ∃ x, (b + 8) / 25 = x := ⟨_, rfl⟩
  obtain ⟨u, hu⟩ : ∃ x, b = f + x := ⟨b - f, by omega⟩
  obtain ⟨g, hg⟩ : ∃ x, (u + 1) / 3 = x := ⟨_, rfl⟩
  obtain ⟨v, hv⟩ : ∃ x, 19 * a + b = d + g + x := ⟨19 * a + b - d - g, by omega⟩
  obtain ⟨h, hh⟩ : ∃ x, (v + 15) % 30 = x := ⟨_, rfl⟩
  obtain ⟨i, hi⟩ : ∃ x, c / 4 = x := ⟨_, rfl⟩
  obtain ⟨k, hk⟩ : ∃ x, c % 4 = x := ⟨_, rfl⟩
  obtain ⟨w, hw⟩ : ∃ x, 32 + 2 * e + 2 * i = h + k + x :=
    ⟨32 + 2 * e + 2 * i - h - k, by omega⟩
  obtain ⟨l, hl⟩ : ∃ x, w % 7 = x := ⟨_, rfl⟩
  obtain ⟨m, hm⟩ : ∃ x, (a + 11 * h + 22 * l) / 451 = x := ⟨_, rfl⟩
  have hml : 7 * m ≤ h + l := by omega
  have hNat : pascoaT year = h + l - 7 * m + 114 := by
    simp only [pascoaT]
    rw [ha, hb, hc, hd, he, hf]
    rw [show b - f + 1 = u + 1 by omega, hg]
    rw [show 19 * a + b - d - g + 15 = v + 15 by omega, hh, hi, hk]
    rw [show 32 + 2 * e + 2 * i - h - k = w by omega, hl, hm]
  have c1 : (year : Int) % 19 = (a : Int) := by omega
  have c2 : (year : Int) / 100 = (b : Int) := by omega
  have c3 : (year : Int) % 100 = (c : Int) := by omega
  have c4 : (b : Int) / 4 = (d : Int) := by omega
  have c5 : (b : Int) % 4 = (e : Int) := by omega
  have c6 : ((b : Int) + 8) / 25 = (f : Int) := by omega
  have c7 : ((b : Int) - (f : Int) + 1) / 3 = (g : Int) := by omega
  have c8 : (19 * (a : Int) + (b : Int) - (d : Int) - (g : Int) + 15) % 30 = (h : Int) := by
    omega
  have c9 : ((c : Int)) / 4 = (i : Int) := by omega
  have c10 : ((c : Int)) % 4 = (k : Int) := by omega
  have c11 : (32 + 2 * (e : Int) + 2 * (i : Int) - (h : Int) - (k : Int)) % 7 = (l : Int) := by
    omega
  have c12 : ((a : Int) + 11 * (h : Int) + 22 * (l : Int)) / 451 = (m : Int) := by omega
  have hInt : pascoaTInt year = (h : Int) + (l : Int) - 7 * (m : Int) + 114 := by
    simp only [pascoaTInt]
    rw [c1, c2, c3, c4, c5, c6, c7, c8, c9, c10, c11, c12]
  rw [hInt, hNat]
  omega

theorem pascoaT_bounds (y : Nat) : 107 ≤ pascoaT y ∧ pascoaT y ≤ 149 := by
  simp only [pascoaT]
  omega

/-- The Easter month/day pair: March 15..31 or April 1..26. -/
theorem pascoa_month_day (y : Nat) :
    (pascoaMonth y = 3 ∧ 15 ≤ pascoaDay y ∧ pascoaDay y ≤ 31 ∧ pascoaDay y = pascoaT y - 92) ∨
    (pascoaMonth y = 4 ∧ 1 ≤ pascoaDay y ∧ pascoaDay y ≤ 26 ∧ pascoaDay y = pascoaT y - 123) := by
  have hb := pascoaT_bounds y
  simp only [pascoaMonth, pascoaDay]
  omega

/-- Easter's ordinal lies between Mar 15 and Apr 26 of its own year. -/
theorem calcPascoa_range (y : Nat) :
    daysBeforeYear y + 74 + leapAdj y ≤ calcPascoa y ∧
    calcPascoa y ≤ daysBeforeYear y + 116 + leapAdj y := by
  have hm := daysBeforeMonth_eval y
  have hb := pascoaT_bounds y
  rcases pascoa_month_day y with ⟨hM, hd⟩ | ⟨hM, hd⟩ <;>
    simp only [calcPascoa, ymd2ord, hM, hm.2.1, hm.2.2.1] <;> omega

/-- Easter-relative dates with offsets in `-48 .. 60` stay inside their year,
so the `timedelta` addition in `_delta_pascoa` never overflows and the
`Int.toNat` in `deltaPascoa` never clips. -/
theorem deltaPascoa_range (y : Nat) (k : Int) (hy : 1 ≤ y) (hk1 : -48 ≤ k) (hk2 : k ≤ 60) :
    ymd2ord y 1 1 ≤ deltaPascoa y k ∧ deltaPascoa y k ≤ ymd2ord y 12 31 ∧
    ((deltaPascoa y k : Int) = (calcPascoa y : Int) + k) := by
  have hp := calcPascoa_range y
  have hyl := yearLen_eq y hy
  have hadj : leapAdj y = if isLeap y then 1 else 0 := rfl
  rw [jan1_eq, dec31_eq y hy]
  simp only [deltaPascoa]
  split_ifs at hadj <;> omega

/-! ## Holiday registry facts -/

/-- The resolved holiday list of a year, in registry order. -/
theorem holidaysOf_eq (y : Nat) :
    holidaysOf y NATIONAL_HOLIDAYS =
      [ymd2ord y 1 1, deltaPascoa y (-48), deltaPascoa y (-47), deltaPascoa y (-2),
       ymd2ord y 4 21, ymd2ord y 5 1, deltaPascoa y 60, ymd2ord y 9 7, ymd2ord y 10 12,
       ymd2ord y 11 2, ymd2ord y 11 15]
      ++ (if 2024 ≤ y then [ymd2ord y 11 20] else [])
      ++ [ymd2ord y 12 25] := by
  by_cases h24 : y < 2024 <;>
    simp [holidaysOf, NATIONAL_HOLIDAYS, calcForYear, h24, Nat.not_lt.mp]

/-- Every resolved holiday of year `y` lies inside year `y`. -/
theorem holidaysOf_in_year {y o : Nat} (hy : 1 ≤ y)
    (h : o ∈ holidaysOf y NATIONAL_HOLIDAYS) :
    ymd2ord y 1 1 ≤ o ∧ o ≤ ymd2ord y 12 31 := by
  obtain ⟨hm1, hm3, hm4, hm5, hm9, hm10, hm11, hm12⟩ := daysBeforeMonth_eval y
  have hd48 := deltaPascoa_range y (-48) hy (by omega) (by omega)
  have hd47 := deltaPascoa_range y (-47) hy (by omega) (by omega)
  have hd2 := deltaPascoa_range y (-2) hy (by omega) (by omega)
  have hd60 := deltaPascoa_range y 60 hy (by omega) (by omega)
  rw [holidaysOf_eq] at h
  by_cases h24 : 2024 ≤ y
  · rw [if_pos h24] at h
    simp only [List.cons_append, List.nil_append, List.mem_cons, List.not_mem_nil,
      or_false] at h
    rcases h with rfl | rfl | rfl | rfl | rfl | rfl | rfl | rfl | rfl | rfl | rfl | rfl | rfl
    · simp only [ymd2ord, hm1, hm3, hm4, hm5, hm9, hm10, hm11, hm12]; omega
    · exact ⟨hd48.1, hd48.2.1⟩
    · exact ⟨hd47.1, hd47.2.1⟩
    · exact ⟨hd2.1, hd2.2.1⟩
    · simp only [ymd2ord, hm1, hm3, hm4, hm5, hm9, hm10, hm11, hm12]; omega
    · simp only [ymd2ord, hm1, hm3, hm4, hm5, hm9, hm10, hm11, hm12]; omega
    · exact ⟨hd60.1, hd60.2.1⟩
    · simp only [ymd2ord, hm1, hm3, hm4, hm5, hm9, hm10, hm11, hm12]; omega
    · simp only [ymd2ord, hm1, hm3, hm4, hm5, hm9, hm10, hm11, hm12]; omega
    · simp only [ymd2ord, hm1, hm3, hm4, hm5, hm9, hm10, hm11, hm12]; omega
    · simp only [ymd2ord, hm1, hm3, hm4, hm5, hm9, hm10, hm11, hm12]; omega
    · simp only [ymd2ord, hm1, hm3, hm4, hm5, hm9, hm10, hm11, hm12]; omega
    · simp only [ymd2ord, hm1, hm3, hm4, hm5, hm9, hm10, hm11, hm12]; omega
  · rw [if_neg h24] at h
    simp only [List.cons_append, List.nil_append, List.mem_cons, List.not_mem_nil,
      or_false] at h
    rcases h with rfl | rfl | rfl | rfl | rfl | rfl | rfl | rfl | rfl | rfl | rfl | rfl
    · simp only [ymd2ord, hm1, hm3, hm4, hm5, hm9, hm10, hm11, hm12]; omega
    · exact ⟨hd48.1, hd48.2.1⟩
    · exact ⟨hd47.1, hd47.2.1⟩
    · exact ⟨hd2.1, hd2.2.1⟩
    · simp only [ymd2ord, hm1, hm3, hm4, hm5, hm9, hm10, hm11, hm12]; omega
    · simp only [ymd2ord, hm1, hm3, hm4, hm5, hm9, hm10, hm11, hm12]; omega
    · exact ⟨hd60.1, hd60.2.1⟩
    · simp only [ymd2ord, hm1, hm3, hm4, hm5, hm9, hm10, hm11, hm12]; omega
    · simp only [ymd2ord, hm1, hm3, hm4, hm5, hm9, hm10, hm11, hm12]; omega
    · simp only [ymd2ord, hm1, hm3, hm4, hm5, hm9, hm10, hm11, hm12]; omega
    · simp only [ymd2ord, hm1, hm3, hm4, hm5, hm9, hm10, hm11, hm12]; omega
    · simp only [ymd2ord, hm1, hm3, hm4, hm5, hm9, hm10, hm11, hm12]; omega

/-- Inside year `y`, the scan predicate of `_get_year_dus` agrees with the
pointwise predicate `busPred`. -/
theorem yearDusList_eq_filter (y : Nat) (hy : 1 ≤ y) :
    yearDusList y (holidaysOf y NATIONAL_HOLIDAYS) =
      (List.range' (ymd2ord y 1 1) (ymd2ord y 12 31 + 1 - ymd2ord y 1 1)).filter busPred := by
  unfold yearDusList
  apply List.filter_congr
  intro o ho
  have hb := List.mem_range'_1.mp ho
  have hyo : yearOf o = y := yearOf_of_range hy (by omega) (by omega)
  simp only [busPred, hyo]

theorem getYearHolidays_ok (y : Nat) (hy : 1 ≤ y) (h9 : y ≤ 9999) :
    getYearHolidays y NATIONAL_HOLIDAYS = .ok (holidaysOf y NATIONAL_HOLIDAYS) := by
  unfold getYearHolidays
  rw [if_pos ⟨hy, h9⟩]

theorem dec31_lt_max {y : Nat} (hy : 1 ≤ y) (h9 : y ≤ 9998) : ymd2ord y 12 31 < maxOrdinal := by
  rw [dec31_eq y hy]
  have hmono := daysBeforeYear_mono (show y + 1 ≤ 9999 by omega)
  have h99 : daysBeforeYear 9999 = 3651694 := by decide
  have hmax : maxOrdinal = 3652059 := rfl
  omega

/-- For a valid, non-final year the business-day scan succeeds and is the
`busPred` filter of the year's ordinal interval. -/
theorem getYearDus_ok (y : Nat) (hy : 1 ≤ y) (h9 : y ≤ 9998) :
    getYearDus y NATIONAL_HOLIDAYS =
      .ok ((List.range' (ymd2ord y 1 1) (ymd2ord y 12 31 + 1 - ymd2ord y 1 1)).filter busPred) := by
  unfold getYearDus
  rw [show NATIONAL_HOLIDAYS.isEmpty = false from rfl]
  simp only [Bool.false_eq_true, if_false, getYearHolidays_ok y hy (by omega)]
  show Except.bind _ _ = _
  simp only [Except.bind]
  rw [if_pos ⟨hy, by omega⟩, if_pos (dec31_lt_max hy h9)]
  rw [yearDusList_eq_filter y hy]

/-- The pure merged list `_get_all_dus_for_years` builds when every year scan
succeeds. -/
def dusConcat (years : List Nat) : List Nat :=
  (years.map (fun y =>
    (List.range' (ymd2ord y 1 1) (ymd2ord y 12 31 + 1 - ymd2ord y 1 1)).filter busPred)).flatten

theorem except_bind_ok {α β : Type} (a : α) (f : α → Except CalError β) :
    (Except.ok a >>= f) = f a := rfl

theorem except_pure_eq {α : Type} (a : α) : (pure a : Except CalError α) = .ok a := rfl

theorem getAllDus_go {years : List Nat} (h : ∀ y ∈ years, 1 ≤ y ∧ y ≤ 9998) (acc : List Nat) :
    (years.foldlM (fun acc y => do
      let l ← getYearDus y NATIONAL_HOLIDAYS
      pure (acc ++ l)) acc : Except CalError (List Nat)) = .ok (acc ++ dusConcat years) := by
  induction years generalizing acc with
  | nil => simp [dusConcat, except_pure_eq]
  | cons y ys ih =>
    have hy := h y (List.mem_cons_self y ys)
    have ih2 := ih (fun z hz => h z (List.mem_cons_of_mem y hz))
    simp only [except_pure_eq] at ih2
    simp only [List.foldlM_cons, getYearDus_ok y hy.1 hy.2, except_bind_ok, except_pure_eq]
    rw [ih2]
    simp [dusConcat, List.append_assoc]

theorem getAllDus_ok {years : List Nat} (h : ∀ y ∈ years, 1 ≤ y ∧ y ≤ 9998) :
    getAllDusForYears years = .ok (dusConcat years) := by
  unfold getAllDusForYears
  exact getAllDus_go h []

/-- Over a consecutive block of valid years the merged business-day list is the
`busPred` filter of one ordinal interval. -/
theorem dusConcat_range' (y0 n : Nat) (hy : 1 ≤ y0) :
    dusConcat (List.range' y0 n) =
      (List.range' (ymd2ord y0 1 1) (daysBeforeYear (y0 + n) + 1 - ymd2ord y0 1 1)).filter
        busPred := by
  induction n generalizing y0 with
  | zero =>
    simp [dusConcat, jan1_eq]
  | succ n ih =>
    rw [List.range'_succ]
    have hstep : dusConcat (y0 :: List.range' (y0 + 1) n) =
        (List.range' (ymd2ord y0 1 1) (ymd2ord y0 12 31 + 1 - ymd2ord y0 1 1)).filter busPred
        ++ dusConcat (List.range' (y0 + 1) n) := by
      simp [dusConcat]
    rw [hstep, ih (y0 + 1) (by omega)]
    rw [← List.filter_append]
    congr 1
    have ha := jan1_eq y0
    have hb := dec31_eq y0 hy
    have hc := jan1_eq (y0 + 1)
    have hd := daysBeforeYear_step y0
    have he := daysBeforeYear_mono (show y0 + 1 ≤ y0 + (n + 1) by omega)
    have h1 : ymd2ord (y0 + 1) 1 1 =
        ymd2ord y0 1 1 + 1 * (ymd2ord y0 12 31 + 1 - ymd2ord y0 1 1) := by omega
    have hf : y0 + 1 + n = y0 + (n + 1) := by omega
    rw [h1, List.range'_append, hf]
    congr 1
    omega

/-! ## Counting and indexing business days -/

theorem range'_split_aux (a m k : Nat) :
    List.range' a (m + k) = List.range' a m ++ List.range' (a + m) k := by
  rw [show a + m = a + 1 * m from by omega, List.range'_append]
  congr 1
  omega

theorem range'_split {a b n : Nat} (h1 : a ≤ b) (h2 : b ≤ a + n) :
    List.range' a n = List.range' a (b - a) ++ List.range' b (n - (b - a)) := by
  have haux := range'_split_aux a (b - a) (n - (b - a))
  rw [show (b - a) + (n - (b - a)) = n from by omega] at haux
  rw [show a + (b - a) = b from by omega] at haux
  exact haux

theorem duCount_split {a b c : Nat} (h1 : a ≤ b) (h2 : b ≤ c) :
    duCount a c = duCount a b + duCount b c := by
  unfold duCount
  rw [range'_split (show a ≤ b from h1) (show b ≤ a + (c - a) by omega),
    List.filter_append, List.length_append,
    show c - a - (b - a) = c - b from by omega]

theorem duCount_pos {a b d : Nat} (hp : busPred d = true) (h1 : a ≤ d) (h2 : d < b) :
    1 ≤ duCount a b := by
  have hmem : d ∈ (List.range' a (b - a)).filter busPred :=
    List.mem_filter.mpr ⟨List.mem_range'_1.mpr ⟨h1, by omega⟩, hp⟩
  have := List.length_pos.mpr (List.ne_nil_of_mem hmem)
  unfold duCount
  omega

theorem indexOf_append_left {l1 l2 : List Nat} {x : Nat} (h : x ∉ l1) :
    (l1 ++ l2).indexOf x = l1.length + l2.indexOf x := by
  induction l1 with
  | nil => simp
  | cons a t ih =>
    have hax : ¬(a == x) = true := by
      simp only [beq_iff_eq]
      intro hc
      exact h (hc ▸ List.mem_cons_self a t)
    simp only [List.cons_append, List.indexOf_cons, hax, Bool.false_eq_true, cond_false,
      List.length_cons]
    rw [ih (fun hm => h (List.mem_cons_of_mem a hm))]
    omega

theorem indexOf_filter_range' {a n d : Nat} (hp : busPred d = true) (h1 : a ≤ d)
    (h2 : d < a + n) :
    ((List.range' a n).filter busPred).indexOf d = duCount a d := by
  rw [range'_split (show a ≤ d from h1) (show d ≤ a + n by omega), List.filter_append]
  have hnot : d ∉ (List.range' a (d - a)).filter busPred := by
    intro hmem
    have hr := List.mem_range'_1.mp (List.mem_filter.mp hmem).1
    omega
  rw [indexOf_append_left hnot]
  rw [show n - (d - a) = (n - (d - a) - 1) + 1 by omega, List.range'_succ,
    List.filter_cons_of_pos hp, List.indexOf_cons_self]
  rfl

theorem nodup_filter_range' (a n : Nat) : ((List.range' a n).filter busPred).Nodup :=
  (List.nodup_range' a n).filter _

theorem sorted_filter_range' (a n : Nat) :
    ((List.range' a n).filter busPred).Sorted (· < ·) :=
  List.Pairwise.sublist (List.filter_sublist _) (List.pairwise_lt_range' a n)

theorem get_filter_range' {a n j : Nat} (h : j < ((List.range' a n).filter busPred).length) :
    busPred (((List.range' a n).filter busPred).get ⟨j, h⟩) = true ∧
    a ≤ ((List.range' a n).filter busPred).get ⟨j, h⟩ ∧
    ((List.range' a n).filter busPred).get ⟨j, h⟩ < a + n ∧
    duCount a (((List.range' a n).filter busPred).get ⟨j, h⟩) = j := by
  have hmem := List.get_mem ((List.range' a n).filter busPred) j h
  have hf := List.mem_filter.mp hmem
  have hr := List.mem_range'_1.mp hf.1
  refine ⟨hf.2, hr.1, hr.2, ?_⟩
  have hidx : ((List.range' a n).filter busPred).indexOf
      (((List.range' a n).filter busPred).get ⟨j, h⟩)
      = duCount a (((List.range' a n).filter busPred).get ⟨j, h⟩) :=
    indexOf_filter_range' hf.2 hr.1 hr.2
  have hlt : ((List.range' a n).filter busPred).indexOf
      (((List.range' a n).filter busPred).get ⟨j, h⟩) < ((List.range' a n).filter busPred).length :=
    List.indexOf_lt_length.mpr hmem
  have hget := List.indexOf_get hlt
  have hj := (List.Nodup.get_inj_iff (nodup_filter_range' a n)).mp hget
  have : ((List.range' a n).filter busPred).indexOf
      (((List.range' a n).filter busPred).get ⟨j, h⟩) = j := congrArg Fin.val hj
  omega

theorem length_filter_range' (a n : Nat) :
    ((List.range' a n).filter busPred).length = duCount a (a + n) := by
  unfold duCount
  rw [show a + n - a = n from by omega]

/-! ## Global business-day rank -/

theorem rank_split {a o : Nat} (h1 : 1 ≤ a) (h2 : a ≤ o) :
    rank o = rank a + duCount a o := duCount_split h1 h2

theorem busPred_pos {x : Nat} (hp : busPred x = true) : 1 ≤ x := by
  rcases Nat.eq_zero_or_pos x with rfl | h
  · exact absurd hp (by decide)
  · exact h

theorem rank_lt_of_bus {x y : Nat} (hp : busPred x = true) (hxy : x < y) : rank x < rank y := by
  have hx1 := busPred_pos hp
  have hs := rank_split hx1 (Nat.le_of_lt hxy)
  have hpos := duCount_pos hp (Nat.le_refl x) hxy
  omega

theorem rank_inj_bus {x y : Nat} (hx : busPred x = true) (hy : busPred y = true)
    (h : rank x = rank y) : x = y := by
  rcases Nat.lt_trichotomy x y with hlt | heq | hgt
  · exact absurd h (Nat.ne_of_lt (rank_lt_of_bus hx hlt))
  · exact heq
  · exact absurd h.symm (Nat.ne_of_lt (rank_lt_of_bus hy hgt))

/-! ## Density: every 7 consecutive days contain at least 3 business days -/

theorem leapAdj_le (y : Nat) : leapAdj y ≤ 1 := by
  unfold leapAdj
  split_ifs <;> omega

theorem yearLen_eq' (y : Nat) (hy : 1 ≤ y) :
    daysBeforeYear (y + 1) = daysBeforeYear y + 365 + leapAdj y := yearLen_eq y hy

theorem busPred_iff (o : Nat) :
    busPred o = true ↔ (weekday o < 5 ∧ o ∉ holidaysOf (yearOf o) NATIONAL_HOLIDAYS) := by
  simp [busPred, List.elem_iff]

/-- Each resolved holiday of year `y`, as a linear form in `daysBeforeYear y`,
`leapAdj y` and the Easter ordinal. -/
theorem mem_holidaysOf_linear {y o : Nat} (hy : 1 ≤ y) (h : o ∈ holidaysOf y NATIONAL_HOLIDAYS) :
    (o : Int) = (daysBeforeYear y : Int) + 1 ∨
    (o : Int) = (calcPascoa y : Int) - 48 ∨
    (o : Int) = (calcPascoa y : Int) - 47 ∨
    (o : Int) = (calcPascoa y : Int) - 2 ∨
    (o : Int) = (daysBeforeYear y : Int) + 111 + (leapAdj y : Int) ∨
    (o : Int) = (daysBeforeYear y : Int) + 121 + (leapAdj y : Int) ∨
    (o : Int) = (calcPascoa y : Int) + 60 ∨
    (o : Int) = (daysBeforeYear y : Int) + 250 + (leapAdj y : Int) ∨
    (o : Int) = (daysBeforeYear y : Int) + 285 + (leapAdj y : Int) ∨
    (o : Int) = (daysBeforeYear y : Int) + 306 + (leapAdj y : Int) ∨
    (o : Int) = (daysBeforeYear y : Int) + 319 + (leapAdj y : Int) ∨
    (o : Int) = (daysBeforeYear y : Int) + 324 + (leapAdj y : Int) ∨
    (o : Int) = (daysBeforeYear y : Int) + 359 + (leapAdj y : Int) := by
  obtain ⟨hm1, hm3, hm4, hm5, hm9, hm10, hm11, hm12⟩ := daysBeforeMonth_eval y
  have hd48 := (deltaPascoa_range y (-48) hy (by omega) (by omega)).2.2
  have hd47 := (deltaPascoa_range y (-47) hy (by omega) (by omega)).2.2
  have hd2 := (deltaPascoa_range y (-2) hy (by omega) (by omega)).2.2
  have hd60 := (deltaPascoa_range y 60 hy (by omega) (by omega)).2.2
  rw [holidaysOf_eq] at h
  by_cases h24 : 2024 ≤ y
  · rw [if_pos h24] at h
    simp only [List.cons_append, List.nil_append, List.mem_cons, List.not_mem_nil,
      or_false] at h
    rcases h with rfl | rfl | rfl | rfl | rfl | rfl | rfl | rfl | rfl | rfl | rfl | rfl | rfl
    · refine Or.inl ?_
      simp only [ymd2ord, hm1]; omega
    · exact Or.inr (Or.inl (by omega))
    · exact Or.inr (Or.inr (Or.inl (by omega)))
    · exact Or.inr (Or.inr (Or.inr (Or.inl (by omega))))
    · refine Or.inr (Or.inr (Or.inr (Or.inr (Or.inl ?_))))
      simp only [ymd2ord, hm4]; omega
    · refine Or.inr (Or.inr (Or.inr (Or.inr (Or.inr (Or.inl ?_)))))
      simp only [ymd2ord, hm5]; omega
    · exact Or.inr (Or.inr (Or.inr (Or.inr (Or.inr (Or.inr (Or.inl (by omega)))))))
    · refine Or.inr (Or.inr (Or.inr (Or.inr (Or.inr (Or.inr (Or.inr (Or.inl ?_)))))))
      simp only [ymd2ord, hm9]; omega
    · refine Or.inr (Or.inr (Or.inr (Or.inr (Or.inr (Or.inr (Or.inr (Or.inr (Or.inl ?_))))))))
      simp only [ymd2ord, hm10]; omega
    · refine Or.inr (Or.inr (Or.inr (Or.inr (Or.inr (Or.inr (Or.inr (Or.inr (Or.inr
        (Or.inl ?_)))))))))
      simp only [ymd2ord, hm11]; omega
    · refine Or.inr (Or.inr (Or.inr (Or.inr (Or.inr (Or.inr (Or.inr (Or.inr (Or.inr
        (Or.inr (Or.inl ?_))))))))))
      simp only [ymd2ord, hm11]; omega
    · refine Or.inr (Or.inr (Or.inr (Or.inr (Or.inr (Or.inr (Or.inr (Or.inr (Or.inr
        (Or.inr (Or.inr (Or.inl ?_)))))))))))
      simp only [ymd2ord, hm11]; omega
    · refine Or.inr (Or.inr (Or.inr (Or.inr (Or.inr (Or.inr (Or.inr (Or.inr (Or.inr
        (Or.inr (Or.inr (Or.inr ?_)))))))))))
      simp only [ymd2ord, hm12]; omega
  · rw [if_neg h24] at h
    simp only [List.cons_append, List.nil_append, List.mem_cons, List.not_mem_nil,
      or_false] at h
    rcases h with rfl | rfl | rfl | rfl | rfl | rfl | rfl | rfl | rfl | rfl | rfl | rfl
    · refine Or.inl ?_
      simp only [ymd2ord, hm1]; omega
    · exact Or.inr (Or.inl (by omega))
    · exact Or.inr (Or.inr (Or.inl (by omega)))
    · exact Or.inr (Or.inr (Or.inr (Or.inl (by omega))))
    · refine Or.inr (Or.inr (Or.inr (Or.inr (Or.inl ?_))))
      simp only [ymd2ord, hm4]; omega
    · refine Or.inr (Or.inr (Or.inr (Or.inr (Or.inr (Or.inl ?_)))))
      simp only [ymd2ord, hm5]; omega
    · exact Or.inr (Or.inr (Or.inr (Or.inr (Or.inr (Or.inr (Or.inl (by omega)))))))
    · refine Or.inr (Or.inr (Or.inr (Or.inr (Or.inr (Or.inr (Or.inr (Or.inl ?_)))))))
      simp only [ymd2ord, hm9]; omega
    · refine Or.inr (Or.inr (Or.inr (Or.inr (Or.inr (Or.inr (Or.inr (Or.inr (Or.inl ?_))))))))
      simp only [ymd2ord, hm10]; omega
    · refine Or.inr (Or.inr (Or.inr (Or.inr (Or.inr (Or.inr (Or.inr (Or.inr (Or.inr
        (Or.inl ?_)))))))))
      simp only [ymd2ord, hm11]; omega
    · refine Or.inr (Or.inr (Or.inr (Or.inr (Or.inr (Or.inr (Or.inr (Or.inr (Or.inr
        (Or.inr (Or.inl ?_))))))))))
      simp only [ymd2ord, hm11]; omega
    · refine Or.inr (Or.inr (Or.inr (Or.inr (Or.inr (Or.inr (Or.inr (Or.inr (Or.inr
        (Or.inr (Or.inr (Or.inr ?_)))))))))))
      simp only [ymd2ord, hm12]; omega

/-- Resolved holidays are at latest Dec 25 (offset 359) of their year. -/
theorem holiday_le {y o : Nat} (hy : 1 ≤ y) (h : o ∈ holidaysOf y NATIONAL_HOLIDAYS) :
    (o : Int) ≤ (daysBeforeYear y : Int) + 359 + (leapAdj y : Int) ∧
    (daysBeforeYear y : Int) + 1 ≤ (o : Int) := by
  have hl := mem_holidaysOf_linear hy h
  have hp := calcPascoa_range y
  have ha := leapAdj_le y
  omega

/-- Two holiday hits less than 7 days apart belong to the same year. -/
theorem holHit_same_year {o1 o2 : Nat} (h1o : 1 ≤ o1)
    (hh1 : o1 ∈ holidaysOf (yearOf o1) NATIONAL_HOLIDAYS)
    (hlt : o1 < o2) (hnear : o2 ≤ o1 + 6) : yearOf o1 = yearOf o2 := by
  have hc1 := yearOf_char o1 h1o
  have hc2 := yearOf_char o2 (by omega)
  have hmono := yearOf_mono h1o (Nat.le_of_lt hlt)
  by_contra hne
  have hstep : yearOf o1 + 1 ≤ yearOf o2 := by omega
  have hmono2 := daysBeforeYear_mono hstep
  have hb1 := holiday_le hc1.1 hh1
  have hlen := yearLen_eq' (yearOf o1) hc1.1
  have ha := leapAdj_le (yearOf o1)
  omega

/-- Three distinct resolved holidays of one year never fit within 7 consecutive
days (the only clusters are Carnival Monday/Tuesday, Good Friday/Tiradentes and
Nov 15/Nov 20, all of size two and far apart). -/
theorem same_year_no_three {y o1 o2 o3 : Nat} (hy : 1 ≤ y)
    (m1 : o1 ∈ holidaysOf y NATIONAL_HOLIDAYS) (m2 : o2 ∈ holidaysOf y NATIONAL_HOLIDAYS)
    (m3 : o3 ∈ holidaysOf y NATIONAL_HOLIDAYS)
    (h12 : o1 < o2) (h23 : o2 < o3) (hspan : o3 ≤ o1 + 6) : False := by
  have d1 := mem_holidaysOf_linear hy m1
  have d2 := mem_holidaysOf_linear hy m2
  have d3 := mem_holidaysOf_linear hy m3
  have hp := calcPascoa_range y
  have ha := leapAdj_le y
  omega

theorem countP_and_not (l : List Nat) (p q : Nat → Bool) :
    List.countP p l ≤ List.countP (fun o => p o && !q o) l + List.countP q l := by
  induction l with
  | nil => simp
  | cons a t ih =>
    simp only [List.countP_cons]
    rcases hp : p a <;> rcases hq : q a <;> simp [hp, hq] <;> omega

theorem weekday_count_seven (x : Nat) :
    List.countP (fun o => decide (weekday o < 5)) (List.range' x 7) = 5 := by
  have hr : List.range' x 7 = [x, x+1, x+2, x+3, x+4, x+5, x+6] := rfl
  rw [hr]
  simp only [List.countP_cons, List.countP_nil, weekday, decide_eq_true_eq]
  split_ifs <;> omega

theorem three_of_countP (q : Nat → Bool) {l : List Nat} (hl : l.Sorted (· < ·))
    (h : 3 ≤ List.countP q l) :
    ∃ a b c, a ∈ l ∧ b ∈ l ∧ c ∈ l ∧ a < b ∧ b < c ∧
      q a = true ∧ q b = true ∧ q c = true := by
  have hf : 3 ≤ (l.filter q).length := by
    rw [← List.countP_eq_length_filter]
    exact h
  have hsf : (l.filter q).Sorted (· < ·) := hl.filter q
  have hmono := hsf.get_strictMono
  refine ⟨(l.filter q).get ⟨0, by omega⟩, (l.filter q).get ⟨1, by omega⟩,
    (l.filter q).get ⟨2, by omega⟩,
    List.mem_of_mem_filter (List.get_mem _ 0 _),
    List.mem_of_mem_filter (List.get_mem _ 1 _),
    List.mem_of_mem_filter (List.get_mem _ 2 _),
    hmono (show (⟨0, by omega⟩ : Fin _) < ⟨1, by omega⟩ from by simp [Fin.mk_lt_mk]),
    hmono (show (⟨1, by omega⟩ : Fin _) < ⟨2, by omega⟩ from by simp [Fin.mk_lt_mk]),
    (List.mem_filter.mp (List.get_mem _ 0 _)).2,
    (List.mem_filter.mp (List.get_mem _ 1 _)).2,
    (List.mem_filter.mp (List.get_mem _ 2 _)).2⟩

/-- Any 7 consecutive days contain at least 5 weekdays minus at most 2 holiday
hits, hence at least 3 business days. -/
theorem bus_in_seven (x : Nat) (hx : 1 ≤ x) : 3 ≤ duCount x (x + 7) := by
  unfold duCount
  rw [show x + 7 - x = 7 from by omega]
  rw [← List.countP_eq_length_filter]
  have hW := weekday_count_seven x
  have hand := countP_and_not (List.range' x 7) (fun o => decide (weekday o < 5))
    (fun o => (holidaysOf (yearOf o) NATIONAL_HOLIDAYS).contains o)
  have hhol : List.countP
      (fun o => (holidaysOf (yearOf o) NATIONAL_HOLIDAYS).contains o) (List.range' x 7) ≤ 2 := by
    by_contra hgt
    push_neg at hgt
    obtain ⟨a, b, c, ha, hb, hc, hab, hbc, qa, qb, qc⟩ :=
      three_of_countP (fun o => (holidaysOf (yearOf o) NATIONAL_HOLIDAYS).contains o)
        (List.pairwise_lt_range' x 7) (by omega)
    have hma := List.mem_range'_1.mp ha
    have hmb := List.mem_range'_1.mp hb
    have hmc := List.mem_range'_1.mp hc
    have ha1 : 1 ≤ a := by omega
    have qa' : a ∈ holidaysOf (yearOf a) NATIONAL_HOLIDAYS := List.elem_iff.mp qa
    have qb' : b ∈ holidaysOf (yearOf b) NATIONAL_HOLIDAYS := List.elem_iff.mp qb
    have qc' : c ∈ holidaysOf (yearOf c) NATIONAL_HOLIDAYS := List.elem_iff.mp qc
    have hy12 := holHit_same_year ha1 qa' hab (by omega)
    have hy13 : yearOf a = yearOf c := holHit_same_year ha1 qa' (by omega) (by omega)
    have qb2 : b ∈ holidaysOf (yearOf a) NATIONAL_HOLIDAYS := by rw [hy12]; exact qb'
    have qc2 : c ∈ holidaysOf (yearOf a) NATIONAL_HOLIDAYS := by rw [hy13]; exact qc'
    exact same_year_no_three (yearOf_char a ha1).1 qa' qb2 qc2 hab hbc (by omega)
  have hbp : List.countP busPred (List.range' x 7) =
      List.countP (fun o => decide (weekday o < 5) &&
        !((holidaysOf (yearOf o) NATIONAL_HOLIDAYS).contains o)) (List.range' x 7) := rfl
  rw [hbp]
  omega

theorem duCount_seven_mul (x k : Nat) (hx : 1 ≤ x) : 3 * k ≤ duCount x (x + 7 * k) := by
  induction k with
  | zero => simp
  | succ k ih =>
    have hsplit := duCount_split (show x ≤ x + 7 * k by omega)
      (show x + 7 * k ≤ x + 7 * (k + 1) by omega)
    have h7 := bus_in_seven (x + 7 * k) (by omega)
    rw [show x + 7 * (k + 1) = x + 7 * k + 7 from by omega] at hsplit
    rw [show x + 7 * (k + 1) = x + 7 * k + 7 from by omega]
    omega

/-- The first business day of a year occurs by January 4. -/
theorem firstBus (y : Nat) (hy : 1 ≤ y) :
    ∃ o, ymd2ord y 1 1 < o ∧ o ≤ ymd2ord y 1 1 + 3 ∧ busPred o = true := by
  have hj := jan1_eq y
  have hyl := yearLen_eq' y hy
  obtain ⟨i, hi1, hi3, hwd⟩ : ∃ i, 1 ≤ i ∧ i ≤ 3 ∧ weekday (ymd2ord y 1 1 + i) < 5 := by
    by_cases hA : weekday (ymd2ord y 1 1 + 1) < 5
    · exact ⟨1, by omega, by omega, hA⟩
    by_cases hB : weekday (ymd2ord y 1 1 + 2) < 5
    · exact ⟨2, by omega, by omega, hB⟩
    refine ⟨3, by omega, by omega, ?_⟩
    simp only [weekday] at hA hB ⊢
    omega
  refine ⟨ymd2ord y 1 1 + i, by omega, by omega, ?_⟩
  rw [busPred_iff]
  refine ⟨hwd, ?_⟩
  intro hmem
  have hyo : yearOf (ymd2ord y 1 1 + i) = y :=
    yearOf_of_range hy (by omega) (by rw [dec31_eq y hy]; omega)
  rw [hyo] at hmem
  have hl := mem_holidaysOf_linear hy hmem
  have hp := calcPascoa_range y
  have ha := leapAdj_le y
  omega

/-- The last business day of a year occurs on or after December 28. -/
theorem lastBus (y : Nat) (hy : 1 ≤ y) :
    ∃ o, ymd2ord y 12 31 - 3 ≤ o ∧ o < ymd2ord y 12 31 ∧ busPred o = true := by
  have hj := jan1_eq y
  have hd := dec31_eq y hy
  have hyl := yearLen_eq' y hy
  have ht365 : 365 ≤ ymd2ord y 12 31 := by omega
  obtain ⟨i, hi1, hi3, hwd⟩ : ∃ i, 1 ≤ i ∧ i ≤ 3 ∧ weekday (ymd2ord y 12 31 - i) < 5 := by
    by_cases hA : weekday (ymd2ord y 12 31 - 1) < 5
    · exact ⟨1, by omega, by omega, hA⟩
    by_cases hB : weekday (ymd2ord y 12 31 - 2) < 5
    · exact ⟨2, by omega, by omega, hB⟩
    refine ⟨3, by omega, by omega, ?_⟩
    simp only [weekday] at hA hB ⊢
    omega
  refine ⟨ymd2ord y 12 31 - i, by omega, by omega, ?_⟩
  rw [busPred_iff]
  refine ⟨hwd, ?_⟩
  intro hmem
  have hyo : yearOf (ymd2ord y 12 31 - i) = y :=
    yearOf_of_range hy (by omega) (by omega)
  rw [hyo] at hmem
  have hl := mem_holidaysOf_linear hy hmem
  have hp := calcPascoa_range y
  have ha := leapAdj_le y
  omega

/-- Window sufficiency, backward direction: at least `m` business days lie
between the January 1 that opens the search window and a business day `d`. -/
theorem backward_count {d : Nat} (m : Nat) (hd : busPred d = true) (hm : 1 ≤ m)
    (hwin : 4 * m + 1 ≤ d) :
    m ≤ duCount (ymd2ord (yearOf (d - 4 * m)) 1 1) d := by
  have hchar := yearOf_char (d - 4 * m) (by omega)
  have hj := jan1_eq (yearOf (d - 4 * m))
  have hA : ymd2ord (yearOf (d - 4 * m)) 1 1 ≤ d - 4 * m := by omega
  rcases Nat.lt_or_ge m 2 with hm1 | hm2
  · have hm1' : m = 1 := by omega
    subst hm1'
    obtain ⟨o, ho1, ho2, hob⟩ := firstBus (yearOf (d - 4 * 1)) hchar.1
    exact duCount_pos hob (by omega) (by omega)
  · have hk : 1 ≤ 4 * m / 7 := by omega
    have h7k : 7 * (4 * m / 7) ≤ 4 * m := by omega
    have h3k : m ≤ 3 * (4 * m / 7) := by omega
    have hx1 : 1 ≤ d - 7 * (4 * m / 7) := by omega
    have hmul := duCount_seven_mul (d - 7 * (4 * m / 7)) (4 * m / 7) hx1
    rw [show d - 7 * (4 * m / 7) + 7 * (4 * m / 7) = d from by omega] at hmul
    have hsp := duCount_split
      (show ymd2ord (yearOf (d - 4 * m)) 1 1 ≤ d - 7 * (4 * m / 7) by omega)
      (show d - 7 * (4 * m / 7) ≤ d by omega)
    omega

/-- Window sufficiency, forward direction: at least `m` business days lie
strictly after a business day `d` and at most the December 31 that closes the
search window. -/
theorem forward_count {d : Nat} (m : Nat) (hd : busPred d = true) (hm : 1 ≤ m) :
    m ≤ duCount (d + 1) (ymd2ord (yearOf (d + 4 * m)) 12 31 + 1) := by
  have hd1 := busPred_pos hd
  have hchar := yearOf_char (d + 4 * m) (by omega)
  have hdec := dec31_eq (yearOf (d + 4 * m)) hchar.1
  have hB : d + 4 * m ≤ ymd2ord (yearOf (d + 4 * m)) 12 31 := by omega
  rcases Nat.lt_or_ge m 2 with hm1 | hm2
  · have hm1' : m = 1 := by omega
    subst hm1'
    obtain ⟨o, ho1, ho2, hob⟩ := lastBus (yearOf (d + 4 * 1)) hchar.1
    have h365 : 365 ≤ ymd2ord (yearOf (d + 4 * 1)) 12 31 := by
      have := jan1_eq (yearOf (d + 4 * 1))
      have := yearLen_eq' (yearOf (d + 4 * 1)) hchar.1
      omega
    exact duCount_pos hob (by omega) (by omega)
  · have hk : 1 ≤ 4 * m / 7 := by omega
    have h7k : 7 * (4 * m / 7) ≤ 4 * m := by omega
    have h3k : m ≤ 3 * (4 * m / 7) := by omega
    have hmul := duCount_seven_mul (d + 1) (4 * m / 7) (by omega)
    have hsp := duCount_split (show d + 1 ≤ d + 1 + 7 * (4 * m / 7) by omega)
      (show d + 1 + 7 * (4 * m / 7) ≤ ymd2ord (yearOf (d + 4 * m)) 12 31 + 1 by omega)
    omega

/-! ## Evaluating the engine on valid inputs -/

theorem yearOf_last9998 : yearOf 3651694 = 9998 := by decide

/-- On dates of years up to 9998, `is_du` returns the pointwise predicate. -/
theorem is_du_eq {o : Nat} (ho : 1 ≤ o) (h9 : yearOf o ≤ 9998) :
    is_du o = .ok (busPred o) := by
  unfold is_du
  have hc := yearOf_char o ho
  rw [getYearDus_ok (yearOf o) hc.1 h9, except_bind_ok, except_pure_eq]
  congr 1
  have hj := jan1_eq (yearOf o)
  have hd := dec31_eq (yearOf o) hc.1
  rcases hb : busPred o with _ | _
  · rcases hcon : (List.filter busPred
        (List.range' (ymd2ord (yearOf o) 1 1)
          (ymd2ord (yearOf o) 12 31 + 1 - ymd2ord (yearOf o) 1 1))).contains o with _ | _
    · rfl
    · exfalso
      have hmem := List.elem_iff.mp hcon
      have := (List.mem_filter.mp hmem).2
      rw [hb] at this
      exact Bool.false_ne_true this
  · have hmem : o ∈ (List.range' (ymd2ord (yearOf o) 1 1)
        (ymd2ord (yearOf o) 12 31 + 1 - ymd2ord (yearOf o) 1 1)).filter busPred :=
      List.mem_filter.mpr ⟨List.mem_range'_1.mpr ⟨by omega, by omega⟩, hb⟩
    exact List.elem_iff.mpr hmem

/-- `duCount` of a singleton interval at a business day. -/
theorem duCount_self {d : Nat} (hd : busPred d = true) : duCount d (d + 1) = 1 := by
  unfold duCount
  rw [show d + 1 - d = 1 from by omega]
  rw [show List.range' d 1 = [d] from rfl, List.filter_cons_of_pos hd]
  rfl

/-- The merged list built by `delta_du`/`range_du`/`diff` over the years
between two valid dates: the `busPred` filter of one ordinal interval from
Jan 1 of the earlier year to Dec 31 of the later year. -/
theorem window_allDus (s e : Nat) (hs : 1 ≤ s) (he : 1 ≤ e)
    (hs9 : yearOf s ≤ 9998) (he9 : yearOf e ≤ 9998) :
    getAllDusForYears (getYearsBetweenTwoDates s e) =
      .ok ((List.range' (ymd2ord (yearOf (min s e)) 1 1)
        (daysBeforeYear (yearOf (max s e) + 1) + 1 - ymd2ord (yearOf (min s e)) 1 1)).filter
          busPred) := by
  have hcs := yearOf_char s hs
  have hce := yearOf_char e he
  unfold getYearsBetweenTwoDates
  split_ifs with hgt
  · have hmin : min s e = s := by omega
    have hmax : max s e = e := by omega
    have hmono := yearOf_mono hs (show s ≤ e by omega)
    rw [hmin, hmax]
    rw [getAllDus_ok (fun y hy => by
      have := List.mem_range'_1.mp hy
      constructor <;> omega)]
    rw [dusConcat_range' (yearOf s) (yearOf e + 1 - yearOf s) hcs.1]
    rw [show yearOf s + (yearOf e + 1 - yearOf s) = yearOf e + 1 from by omega]
  · have hle : e ≤ s := by omega
    have hmin : min s e = e := by omega
    have hmax : max s e = s := by omega
    have hmono := yearOf_mono he hle
    rw [hmin, hmax]
    rw [getAllDus_ok (fun y hy => by
      have := List.mem_range'_1.mp hy
      constructor <;> omega)]
    rw [dusConcat_range' (yearOf e) (yearOf s + 1 - yearOf e) hce.1]
    rw [show yearOf e + (yearOf s + 1 - yearOf e) = yearOf s + 1 from by omega]

/-- `delta_du` on a business day whose 4×n window stays within years
1 .. 9998 always succeeds, and the result is the business day exactly `n`
positions away from `d` in the global business-day order. -/
theorem delta_du_spec (d : Nat) (n : Int)
    (hbus : busPred d = true)
    (h1 : 1 ≤ (d : Int) - 4 * n) (h2 : (d : Int) - 4 * n ≤ 3651694)
    (h3 : 1 ≤ (d : Int) + 4 * n) (h4 : (d : Int) + 4 * n ≤ 3651694) :
    ∃ e, delta_du d n = .ok e ∧ busPred e = true ∧
      (rank e : Int) = (rank d : Int) + n := by
  have hd1 := busPred_pos hbus
  have hm9998 := yearOf_last9998
  have hmo : maxOrdinal = 3652059 := rfl
  have hd9 : yearOf d ≤ 9998 := by
    have := yearOf_mono hd1 (show d ≤ 3651694 by omega)
    omega
  unfold delta_du
  rw [is_du_eq hd1 hd9, except_bind_ok, hbus]
  simp only [Bool.not_true, Bool.false_eq_true, if_false]
  rw [if_neg (show ¬((d : Int) + -n * 4 < 1 ∨ (maxOrdinal : Int) < (d : Int) + -n * 4) by
    omega)]
  rw [if_neg (show ¬((d : Int) + n * 4 < 1 ∨ (maxOrdinal : Int) < (d : Int) + n * 4) by
    omega)]
  set s : Nat := ((d : Int) + -n * 4).toNat with hs_def
  set e0 : Nat := ((d : Int) + n * 4).toNat with he0_def
  have hsInt : (s : Int) = (d : Int) - 4 * n := by omega
  have heInt : (e0 : Int) = (d : Int) + 4 * n := by omega
  have hs1 : 1 ≤ s := by omega
  have he1 : 1 ≤ e0 := by omega
  have hs9 : yearOf s ≤ 9998 := by
    have := yearOf_mono hs1 (show s ≤ 3651694 by omega)
    omega
  have he9 : yearOf e0 ≤ 9998 := by
    have := yearOf_mono he1 (show e0 ≤ 3651694 by omega)
    omega
  rw [window_allDus s e0 hs1 he1 hs9 he9, except_bind_ok]
  have hcmin := yearOf_char (min s e0) (by omega)
  have hcmax := yearOf_char (max s e0) (by omega)
  have hjan := jan1_eq (yearOf (min s e0))
  have hAd : ymd2ord (yearOf (min s e0)) 1 1 ≤ d := by
    have hminle : min s e0 ≤ d := by omega
    omega
  have hdB : d ≤ daysBeforeYear (yearOf (max s e0) + 1) := by
    have hmaxge : d ≤ max s e0 := by omega
    omega
  have hdlt : d < ymd2ord (yearOf (min s e0)) 1 1 +
      (daysBeforeYear (yearOf (max s e0) + 1) + 1 - ymd2ord (yearOf (min s e0)) 1 1) := by
    omega
  have hpos := indexOf_filter_range' hbus hAd hdlt
  have hlen := length_filter_range' (ymd2ord (yearOf (min s e0)) 1 1)
    (daysBeforeYear (yearOf (max s e0) + 1) + 1 - ymd2ord (yearOf (min s e0)) 1 1)
  rw [show ymd2ord (yearOf (min s e0)) 1 1 +
      (daysBeforeYear (yearOf (max s e0) + 1) + 1 - ymd2ord (yearOf (min s e0)) 1 1)
      = daysBeforeYear (yearOf (max s e0) + 1) + 1 from by omega] at hlen
  have hsplitd := duCount_split hAd (show d ≤ daysBeforeYear (yearOf (max s e0) + 1) + 1 by
    omega)
  have hsplit2 := duCount_split (show d ≤ d + 1 by omega)
    (show d + 1 ≤ daysBeforeYear (yearOf (max s e0) + 1) + 1 by omega)
  have hself := duCount_self hbus
  have hbounds : 0 ≤ (((List.range' (ymd2ord (yearOf (min s e0)) 1 1)
        (daysBeforeYear (yearOf (max s e0) + 1) + 1 -
          ymd2ord (yearOf (min s e0)) 1 1)).filter busPred).indexOf d : Int) + n ∧
      (((List.range' (ymd2ord (yearOf (min s e0)) 1 1)
        (daysBeforeYear (yearOf (max s e0) + 1) + 1 -
          ymd2ord (yearOf (min s e0)) 1 1)).filter busPred).indexOf d : Int) + n <
      (((List.range' (ymd2ord (yearOf (min s e0)) 1 1)
        (daysBeforeYear (yearOf (max s e0) + 1) + 1 -
          ymd2ord (yearOf (min s e0)) 1 1)).filter busPred).length : Int) := by
    rcases Int.lt_trichotomy n 0 with hneg | hzero | hposn
    · have hm1 : 1 ≤ (-n).toNat := by omega
      have hmineq : min s e0 = d - 4 * (-n).toNat := by omega
      have hback := backward_count (-n).toNat hbus hm1 (show 4 * (-n).toNat + 1 ≤ d by omega)
      rw [← hmineq] at hback
      omega
    · subst hzero
      have hdpos := duCount_pos hbus (Nat.le_refl d)
        (show d < daysBeforeYear (yearOf (max s e0) + 1) + 1 by omega)
      omega
    · have hm1 : 1 ≤ n.toNat := by omega
      have hmaxeq : max s e0 = d + 4 * n.toNat := by omega
      have hfwd := forward_count n.toNat hbus hm1
      have hBrw : ymd2ord (yearOf (d + 4 * n.toNat)) 12 31 =
          daysBeforeYear (yearOf (max s e0) + 1) := by
        rw [hmaxeq]
        exact dec31_eq _ (yearOf_char (d + 4 * n.toNat) (by omega)).1
      rw [hBrw] at hfwd
      omega
  rw [if_pos hbounds]
  have hj : ((((List.range' (ymd2ord (yearOf (min s e0)) 1 1)
        (daysBeforeYear (yearOf (max s e0) + 1) + 1 -
          ymd2ord (yearOf (min s e0)) 1 1)).filter busPred).indexOf d : Int) + n).toNat <
      ((List.range' (ymd2ord (yearOf (min s e0)) 1 1)
        (daysBeforeYear (yearOf (max s e0) + 1) + 1 -
          ymd2ord (yearOf (min s e0)) 1 1)).filter busPred).length := by
    omega
  rw [List.getD_eq_get _ _ hj]
  refine ⟨_, rfl, (get_filter_range' hj).1, ?_⟩
  obtain ⟨hgb, hga, hglt, hgcount⟩ := get_filter_range' hj
  have hA1 : 1 ≤ ymd2ord (yearOf (min s e0)) 1 1 := by omega
  have hrske := rank_split hA1 hga
  have hrskd := rank_split hA1 hAd
  omega

/-! ## Error propagation -/

theorem except_bind_error {α β : Type} (e : CalError) (f : α → Except CalError β) :
    (Except.error e >>= f) = .error e := rfl

theorem getYearDus_error {y : Nat} {hs : List Holiday} {err : CalError}
    (h : getYearDus y hs = .error err) : err = .invalidYear ∨ err = .overflow := by
  unfold getYearDus getYearHolidays at h
  split_ifs at h <;> simp_all [except_bind_ok, except_bind_error, except_pure_eq]

theorem is_du_error {o : Nat} {err : CalError} (h : is_du o = .error err) :
    err = .invalidYear ∨ err = .overflow := by
  unfold is_du at h
  rcases hg : getYearDus (yearOf o) NATIONAL_HOLIDAYS with err2 | l
  · rw [hg, except_bind_error] at h
    injection h with h2
    exact h2 ▸ getYearDus_error hg
  · rw [hg, except_bind_ok] at h
    rw [except_pure_eq] at h
    cases h

theorem getAllDus_go_error {years : List Nat} {err : CalError} :
    ∀ acc : List Nat,
    (years.foldlM (fun acc y => do
      let l ← getYearDus y NATIONAL_HOLIDAYS
      pure (acc ++ l)) acc : Except CalError (List Nat)) = .error err →
    err = .invalidYear ∨ err = .overflow := by
  induction years with
  | nil =>
    intro acc h
    rw [List.foldlM_nil, except_pure_eq] at h
    cases h
  | cons y ys ih =>
    intro acc h
    rw [List.foldlM_cons] at h
    rcases hg : getYearDus y NATIONAL_HOLIDAYS with err2 | l
    · rw [hg, except_bind_error, except_bind_error] at h
      injection h with h2
      exact h2 ▸ getYearDus_error hg
    · rw [hg, except_bind_ok, except_pure_eq, except_bind_ok] at h
      exact ih _ h

theorem getAllDus_error {years : List Nat} {err : CalError}
    (h : getAllDusForYears years = .error err) : err = .invalidYear ∨ err = .overflow := by
  exact getAllDus_go_error [] h

/-! ## Distance bounds and window membership -/

theorem rank_mono {a b : Nat} (ha : 1 ≤ a) (h : a ≤ b) : rank a ≤ rank b := by
  have := rank_split ha h
  omega

/-- Between two business days, the calendar distance is at most three times the
business-day distance plus six: the density bound in the other direction. -/
theorem bus_dist {x y : Nat} (hx : busPred x = true) (hxy : x ≤ y) :
    (y : Int) - x ≤ 3 * ((rank y : Int) - rank x) + 6 := by
  have hx1 := busPred_pos hx
  have hk := duCount_seven_mul x ((y - x) / 7) hx1
  have hsplit := duCount_split (show x ≤ x + 7 * ((y - x) / 7) by omega)
    (show x + 7 * ((y - x) / 7) ≤ y by omega)
  have hr := rank_split hx1 hxy
  omega

/-- Filtering a duplicate-free list down to the one point `a` leaves one
element when `a` is in the list and none otherwise. -/
theorem filter_point {l : List Nat} (a : Nat) (hnd : l.Nodup) :
    (l.filter (fun o => a ≤ o && o ≤ a)).length = if a ∈ l then 1 else 0 := by
  induction l with
  | nil => simp
  | cons b t ih =>
    rcases List.nodup_cons.mp hnd with ⟨hbt, hnt⟩
    by_cases hba : b = a
    · subst hba
      rw [List.filter_cons_of_pos (by simp)]
      simp only [List.length_cons, if_pos (List.mem_cons_self b t)]
      rw [ih hnt, if_neg hbt]
    · rw [List.filter_cons_of_neg (by
        simp only [Bool.and_eq_true, decide_eq_true_eq]
        omega)]
      rw [ih hnt]
      have hmem : (a ∈ b :: t) ↔ a ∈ t := by
        rw [List.mem_cons]
        exact or_iff_right (fun h => hba h.symm)
      rw [if_congr hmem rfl rfl]

/-- Every ordinal between two valid dates lies in the merged scan interval
from Jan 1 of the earlier year to Dec 31 of the later year. -/
theorem mem_window {s e o : Nat} (hs : 1 ≤ s) (he : 1 ≤ e)
    (hso : min s e ≤ o) (hoe : o ≤ max s e) :
    o ∈ List.range' (ymd2ord (yearOf (min s e)) 1 1)
      (daysBeforeYear (yearOf (max s e) + 1) + 1 - ymd2ord (yearOf (min s e)) 1 1) := by
  have hm1 : 1 ≤ min s e := by omega
  have hc1 := yearOf_char (min s e) hm1
  have hc2 := yearOf_char (max s e) (by omega)
  have hj := jan1_eq (yearOf (min s e))
  apply List.mem_range'_1.mpr
  constructor
  · omega
  · omega

/-- `range_du` without the end date, on valid inputs: the merged window
filtered to `start ≤ du < stop`. -/
theorem range_du_false_eq (s e : Nat) (hs : 1 ≤ s) (he : 1 ≤ e)
    (hs9 : yearOf s ≤ 9998) (he9 : yearOf e ≤ 9998) :
    range_du s e false = .ok (((List.range' (ymd2ord (yearOf (min s e)) 1 1)
      (daysBeforeYear (yearOf (max s e) + 1) + 1 -
        ymd2ord (yearOf (min s e)) 1 1)).filter busPred).filter
      (fun du => s ≤ du && du < e)) := by
  unfold range_du
  rw [window_allDus s e hs he hs9 he9, except_bind_ok]
  rfl

/-- `range_du` with the end date, on valid inputs: the merged window filtered
to `start ≤ du ≤ stop`. -/
theorem range_du_true_eq (s e : Nat) (hs : 1 ≤ s) (he : 1 ≤ e)
    (hs9 : yearOf s ≤ 9998) (he9 : yearOf e ≤ 9998) :
    range_du s e true = .ok (((List.range' (ymd2ord (yearOf (min s e)) 1 1)
      (daysBeforeYear (yearOf (max s e) + 1) + 1 -
        ymd2ord (yearOf (min s e)) 1 1)).filter busPred).filter
      (fun du => s ≤ du && du ≤ e)) := by
  unfold range_du
  rw [window_allDus s e hs he hs9 he9, except_bind_ok]
  rfl

/-! ## Claim theorems -/

/-- C6: `delta_du` (spec `offset`) fails with the NotBusinessDay error exactly
when its anchor date is not a business day (`is_du` returns `false`); whenever
the anchor is a business day, no NotBusinessDay error is raised (any failure is
a different error). -/
theorem C6_notBusinessDay_iff (d : Nat) (n : Int) :
    delta_du d n = .error .notBusinessDay ↔ is_du d = .ok false := by
  unfold delta_du
  rcases hg : is_du d with err | b
  · rw [except_bind_error]
    constructor
    · intro hc
      injection hc with h2
      rcases is_du_error hg with h4 | h4 <;> rw [h4] at h2 <;> cases h2
    · intro hc
      cases hc
  · rw [except_bind_ok]
    rcases b with _ | _
    · simp only [Bool.not_false, if_true]
    · simp only [Bool.not_true, Bool.false_eq_true, if_false]
      constructor
      · intro hc
        exfalso
        split_ifs at hc
        · injection hc with h5
          cases h5
        · injection hc with h5
          cases h5
        · rcases ha : getAllDusForYears
              (getYearsBetweenTwoDates ((d : Int) + -n * 4).toNat
                ((d : Int) + n * 4).toNat) with err2 | l
          · rw [ha, except_bind_error] at hc
            injection hc with h2
            rcases getAllDus_error ha with h4 | h4 <;> rw [h4] at h2 <;> cases h2
          · rw [ha, except_bind_ok] at hc
            split_ifs at hc <;>
              first
                | cases hc
                | (injection hc with h5
                   cases h5)
      · intro hc
        cases hc

/-- C1: the spec promises that `is_business_day(d)` returns, for every date
`d`, whether `d`'s weekday is Mon..Fri and `d` is not a resolved holiday of its
year.  The code instead raises: `_get_year_dus` advances its scan date past
Dec 31 with `date += timedelta(days=1)`, which for year 9999 overflows
`date.max`, so `is_business_day` raises OverflowError on every date of year
9999.  June 15, 9999 is a Tuesday and not a resolved holiday, yet the call
fails instead of returning `True`. -/
theorem C1_year9999_bug :
    is_du (ymd2ord 9999 6 15) = .error .overflow ∧
    weekday (ymd2ord 9999 6 15) < 5 ∧
    ((holidaysOf 9999 NATIONAL_HOLIDAYS).contains (ymd2ord 9999 6 15)) = false := by
  decide

/-- C3 counterexample: `diff(a, a)` is not `0` for every date `a`.  At
2024-01-06 (ordinal 738891, a Saturday, hence not a business day) the inclusive
window holds no business day, and `(len(dus) - 1) * (-1)` yields `1`. -/
theorem C3_diff_self_counterexample :
    diff 738891 738891 = .ok 1 ∧ is_du 738891 = .ok false := by
  decide

/-- C3 (amended): for distinct valid dates `diff` is antisymmetric, and
`diff(a, a)` is `0` when `a` is a business day but `1` when it is not. -/
theorem C3_diff_amended (a b : Nat) (ha : 1 ≤ a) (hb : 1 ≤ b)
    (ha9 : yearOf a ≤ 9998) (hb9 : yearOf b ≤ 9998) :
    (a ≠ b → ∃ v : Int, diff a b = .ok v ∧ diff b a = .ok (-v)) ∧
    diff a a = .ok (if busPred a = true then 0 else 1) := by
  have hca := yearOf_char a ha
  have hcb := yearOf_char b hb
  constructor
  · intro hne
    have hG : getAllDusForYears (List.range' (min (yearOf a) (yearOf b))
        (max (yearOf a) (yearOf b) + 1 - min (yearOf a) (yearOf b))) =
        .ok ((List.range' (ymd2ord (min (yearOf a) (yearOf b)) 1 1)
          (daysBeforeYear (max (yearOf a) (yearOf b) + 1) + 1 -
            ymd2ord (min (yearOf a) (yearOf b)) 1 1)).filter busPred) := by
      rw [getAllDus_ok (fun z hz => by
        have := List.mem_range'_1.mp hz
        constructor <;> omega)]
      rw [dusConcat_range' (min (yearOf a) (yearOf b))
        (max (yearOf a) (yearOf b) + 1 - min (yearOf a) (yearOf b)) (by omega)]
      rw [show min (yearOf a) (yearOf b) +
        (max (yearOf a) (yearOf b) + 1 - min (yearOf a) (yearOf b)) =
        max (yearOf a) (yearOf b) + 1 from by omega]
    have hG2 : getAllDusForYears (List.range' (min (yearOf b) (yearOf a))
        (max (yearOf b) (yearOf a) + 1 - min (yearOf b) (yearOf a))) =
        .ok ((List.range' (ymd2ord (min (yearOf a) (yearOf b)) 1 1)
          (daysBeforeYear (max (yearOf a) (yearOf b) + 1) + 1 -
            ymd2ord (min (yearOf a) (yearOf b)) 1 1)).filter busPred) := by
      rw [Nat.min_comm (yearOf b) (yearOf a), Nat.max_comm (yearOf b) (yearOf a)]
      exact hG
    have hda : diff a b = .ok
        ((((((List.range' (ymd2ord (min (yearOf a) (yearOf b)) 1 1)
          (daysBeforeYear (max (yearOf a) (yearOf b) + 1) + 1 -
            ymd2ord (min (yearOf a) (yearOf b)) 1 1)).filter busPred).filter
              (fun o => min a b ≤ o && o ≤ max a b)).length : Int)
          - 1) * (if b > a then 1 else -1)) := by
      simp only [diff]
      rw [hG, except_bind_ok, except_pure_eq]
    have hdb : diff b a = .ok
        ((((((List.range' (ymd2ord (min (yearOf a) (yearOf b)) 1 1)
          (daysBeforeYear (max (yearOf a) (yearOf b) + 1) + 1 -
            ymd2ord (min (yearOf a) (yearOf b)) 1 1)).filter busPred).filter
              (fun o => min b a ≤ o && o ≤ max b a)).length : Int)
          - 1) * (if a > b then 1 else -1)) := by
      simp only [diff]
      rw [hG2, except_bind_ok, except_pure_eq]
    simp only [Nat.min_comm b a, Nat.max_comm b a] at hdb
    refine ⟨_, hda, ?_⟩
    rw [hdb]
    split_ifs <;> first
      | (exfalso; omega)
      | (congr 1; ring)
  · have hGa : getAllDusForYears (List.range' (min (yearOf a) (yearOf a))
        (max (yearOf a) (yearOf a) + 1 - min (yearOf a) (yearOf a))) =
        .ok ((List.range' (ymd2ord (yearOf a) 1 1)
          (daysBeforeYear (yearOf a + 1) + 1 - ymd2ord (yearOf a) 1 1)).filter busPred) := by
      rw [Nat.min_self, Nat.max_self]
      rw [getAllDus_ok (fun z hz => by
        have := List.mem_range'_1.mp hz
        constructor <;> omega)]
      rw [dusConcat_range' (yearOf a) (yearOf a + 1 - yearOf a) (by omega)]
      rw [show yearOf a + (yearOf a + 1 - yearOf a) = yearOf a + 1 from by omega]
    have hda : diff a a = .ok
        ((((((List.range' (ymd2ord (yearOf a) 1 1)
          (daysBeforeYear (yearOf a + 1) + 1 - ymd2ord (yearOf a) 1 1)).filter
            busPred).filter (fun o => min a a ≤ o && o ≤ max a a)).length : Int)
          - 1) * (if a > a then 1 else -1)) := by
      simp only [diff]
      rw [hGa, except_bind_ok, except_pure_eq]
    simp only [Nat.min_self, Nat.max_self] at hda
    rw [hda]
    have hlen := filter_point a (nodup_filter_range'
      (ymd2ord (yearOf a) 1 1) (daysBeforeYear (yearOf a + 1) + 1 - ymd2ord (yearOf a) 1 1))
    have hj := jan1_eq (yearOf a)
    have hmem : a ∈ (List.range' (ymd2ord (yearOf a) 1 1)
        (daysBeforeYear (yearOf a + 1) + 1 - ymd2ord (yearOf a) 1 1)).filter busPred ↔
        busPred a = true := by
      constructor
      · intro h
        exact (List.mem_filter.mp h).2
      · intro h
        exact List.mem_filter.mpr ⟨List.mem_range'_1.mpr ⟨by omega, by omega⟩, h⟩
    rw [if_neg (Nat.lt_irrefl a)]
    rw [hlen]
    rcases hbp : busPred a with _ | _
    · have hnot : ¬ a ∈ (List.range' (ymd2ord (yearOf a) 1 1)
          (daysBeforeYear (yearOf a + 1) + 1 - ymd2ord (yearOf a) 1 1)).filter busPred := by
        intro hc
        rw [hmem.mp hc] at hbp
        cases hbp
      rw [if_neg hnot]
      rfl
    · rw [if_pos (hmem.mpr hbp)]
      rfl

/-- C4 counterexample: `year_holidays` does not always return its dates in
ascending order.  In 2011 Easter falls on April 24, so Good Friday (April 22)
precedes Tiradentes (April 21) in the registry-ordered result. -/
theorem C4_holidays_order_counterexample :
    year_holidays 2011 = .ok (holidaysOf 2011 NATIONAL_HOLIDAYS) ∧
    ¬ (holidaysOf 2011 NATIONAL_HOLIDAYS).Sorted (· ≤ ·) := by
  constructor
  · rfl
  · decide

/-- C4 (amended): for a valid year `year_holidays` returns exactly the
registry's resolved dates in registry order, and that order is ascending if
and only if Easter falls on or before April 23 (so that Good Friday does not
pass Tiradentes, April 21). -/
theorem C4_holidays_amended (y : Nat) (hy : 1 ≤ y) (h9 : y ≤ 9999) :
    year_holidays y = .ok (holidaysOf y NATIONAL_HOLIDAYS) ∧
    ((holidaysOf y NATIONAL_HOLIDAYS).Sorted (· ≤ ·) ↔
      calcPascoa y ≤ ymd2ord y 4 23) := by
  refine ⟨getYearHolidays_ok y hy h9, ?_⟩
  obtain ⟨hm1, hm3, hm4, hm5, hm9, hm10, hm11, hm12⟩ := daysBeforeMonth_eval y
  have hd48 := deltaPascoa_range y (-48) hy (by omega) (by omega)
  have hd47 := deltaPascoa_range y (-47) hy (by omega) (by omega)
  have hd2 := deltaPascoa_range y (-2) hy (by omega) (by omega)
  have hd60 := deltaPascoa_range y 60 hy (by omega) (by omega)
  have hp := calcPascoa_range y
  have hla := leapAdj_le y
  have hyl := yearLen_eq' y hy
  rw [holidaysOf_eq]
  have hch : ∀ P : List Nat, (P.Sorted (· ≤ ·) ↔ P.Chain' (· ≤ ·)) := fun P =>
    Iff.symm List.chain'_iff_pairwise
  simp only [ymd2ord] at hd48 hd47 hd2 hd60
  by_cases h24 : 2024 ≤ y
  · rw [if_pos h24, hch]
    simp only [List.cons_append, List.nil_append, List.chain'_cons,
      List.chain'_singleton, and_true, ymd2ord]
    omega
  · rw [if_neg h24, hch]
    simp only [List.cons_append, List.nil_append, List.chain'_cons,
      List.chain'_singleton, and_true, ymd2ord]
    omega

/-- C5: on a business-day anchor whose 4×n window stays inside the calendar,
`offset` never reports OffsetOutOfRange — the window always holds enough
business days — and any date it returns is exactly the business day `n`
positions away in the global business-day order, never a silently truncated or
otherwise wrong date. -/
theorem C5_window_safety (d : Nat) (n : Int) (hbus : busPred d = true)
    (h1 : 1 ≤ (d : Int) - 4 * n) (h2 : (d : Int) - 4 * n ≤ 3651694)
    (h3 : 1 ≤ (d : Int) + 4 * n) (h4 : (d : Int) + 4 * n ≤ 3651694) :
    delta_du d n ≠ .error .offsetOutOfRange ∧
    ∀ e, delta_du d n = .ok e →
      (busPred e = true ∧ (rank e : Int) = (rank d : Int) + n) := by
  obtain ⟨e, hok, hbe, hre⟩ := delta_du_spec d n hbus h1 h2 h3 h4
  constructor
  · intro hc
    rw [hok] at hc
    cases hc
  · intro e2 he2
    rw [hok] at he2
    injection he2 with h
    subst h
    exact ⟨hbe, hre⟩

/-- C2: offsetting a business day by `n` and then by `-n` returns the original
date, for any `|n| ≤ 5000` whose search windows stay inside the calendar
(margin `7|n| + 7` on both sides). -/
theorem C2_offset_roundtrip (d : Nat) (n : Int)
    (hbus : busPred d = true) (hn : n.natAbs ≤ 5000)
    (hlo : 7 * (n.natAbs : Int) + 7 ≤ (d : Int))
    (hhi : (d : Int) + 7 * (n.natAbs : Int) + 6 ≤ 3651694) :
    ∃ e, delta_du d n = .ok e ∧ delta_du e (-n) = .ok d := by
  obtain ⟨e, hok, hbe, hre⟩ := delta_du_spec d n hbus (by omega) (by omega)
    (by omega) (by omega)
  have hd1 := busPred_pos hbus
  have he1 := busPred_pos hbe
  have habs : (e : Int) ≤ (d : Int) + 3 * n.natAbs + 6 ∧
      (d : Int) ≤ (e : Int) + 3 * n.natAbs + 6 := by
    rcases Nat.le_total d e with hle | hle
    · have hb1 := bus_dist hbus hle
      have hm := rank_mono hd1 hle
      constructor <;> omega
    · have hb1 := bus_dist hbe hle
      have hm := rank_mono he1 hle
      constructor <;> omega
  obtain ⟨e2, hok2, hbe2, hre2⟩ := delta_du_spec e (-n) hbe (by omega) (by omega)
    (by omega) (by omega)
  have he2d : e2 = d := by
    apply rank_inj_bus hbe2 hbus
    omega
  subst he2d
  exact ⟨e, hok, hok2⟩

/-- C7: `range` returns exactly the business days of `[start, stop)` —
excluding the end date even when it is a business day — and with
`include_end` exactly those of `[start, stop]`, in ascending order. -/
theorem C7_range_semantics (s e : Nat) (hs : 1 ≤ s) (he : 1 ≤ e)
    (hs9 : yearOf s ≤ 9998) (he9 : yearOf e ≤ 9998) :
    (∃ l, range_du s e false = .ok l ∧ l.Sorted (· < ·) ∧
      ∀ o, o ∈ l ↔ (busPred o = true ∧ s ≤ o ∧ o < e)) ∧
    (∃ l, range_du s e true = .ok l ∧ l.Sorted (· < ·) ∧
      ∀ o, o ∈ l ↔ (busPred o = true ∧ s ≤ o ∧ o ≤ e)) := by
  constructor
  · refine ⟨_, range_du_false_eq s e hs he hs9 he9,
      List.Pairwise.sublist (List.filter_sublist _) (sorted_filter_range' _ _), ?_⟩
    intro o
    constructor
    · intro ho
      have h1 := List.mem_filter.mp ho
      have h2 := List.mem_filter.mp h1.1
      have hcond := h1.2
      simp only [Bool.and_eq_true, decide_eq_true_eq] at hcond
      exact ⟨h2.2, hcond.1, hcond.2⟩
    · rintro ⟨hb, h1, h2⟩
      refine List.mem_filter.mpr ⟨List.mem_filter.mpr
        ⟨mem_window hs he (by omega) (by omega), hb⟩, ?_⟩
      simp only [Bool.and_eq_true, decide_eq_true_eq]
      exact ⟨h1, h2⟩
  · refine ⟨_, range_du_true_eq s e hs he hs9 he9,
      List.Pairwise.sublist (List.filter_sublist _) (sorted_filter_range' _ _), ?_⟩
    intro o
    constructor
    · intro ho
      have h1 := List.mem_filter.mp ho
      have h2 := List.mem_filter.mp h1.1
      have hcond := h1.2
      simp only [Bool.and_eq_true, decide_eq_true_eq] at hcond
      exact ⟨h2.2, hcond.1, hcond.2⟩
    · rintro ⟨hb, h1, h2⟩
      refine List.mem_filter.mpr ⟨List.mem_filter.mpr
        ⟨mem_window hs he (by omega) (by omega), hb⟩, ?_⟩
      simp only [Bool.and_eq_true, decide_eq_true_eq]
      exact ⟨h1, h2⟩

/-- C8: for every year in 1950..2100, `year_business_days` succeeds and its
list is strictly ascending, duplicate-free, contains only Mon..Fri dates, and
stays within Jan 1 .. Dec 31 of the year. -/
theorem C8_year_dus_invariants (y : Nat) (h1950 : 1950 ≤ y) (h2100 : y ≤ 2100) :
    ∃ l, year_dus y = .ok l ∧ l.Sorted (· < ·) ∧ l.Nodup ∧
      ∀ o ∈ l, weekday o < 5 ∧ ymd2ord y 1 1 ≤ o ∧ o ≤ ymd2ord y 12 31 := by
  have hy1 : 1 ≤ y := by omega
  have hja := jan1_eq y
  have hdc := dec31_eq y hy1
  have hsep := daysBeforeYear_sep hy1 (show y < y + 1 by omega)
  have hyj : yearOf (ymd2ord y 1 1) = y := yearOf_of_range hy1 (Nat.le_refl _) (by omega)
  have hyd : yearOf (ymd2ord y 12 31) = y := yearOf_of_range hy1 (by omega) (Nat.le_refl _)
  have hsorted := sorted_filter_range'
    (ymd2ord (yearOf (min (ymd2ord y 1 1) (ymd2ord y 12 31))) 1 1)
    (daysBeforeYear (yearOf (max (ymd2ord y 1 1) (ymd2ord y 12 31)) + 1) + 1 -
      ymd2ord (yearOf (min (ymd2ord y 1 1) (ymd2ord y 12 31))) 1 1)
  have hsf : (((List.range'
      (ymd2ord (yearOf (min (ymd2ord y 1 1) (ymd2ord y 12 31))) 1 1)
      (daysBeforeYear (yearOf (max (ymd2ord y 1 1) (ymd2ord y 12 31)) + 1) + 1 -
        ymd2ord (yearOf (min (ymd2ord y 1 1) (ymd2ord y 12 31))) 1 1)).filter
          busPred).filter
      (fun du => ymd2ord y 1 1 ≤ du && du ≤ ymd2ord y 12 31)).Sorted (· < ·) :=
    List.Pairwise.sublist (List.filter_sublist _) hsorted
  refine ⟨_, range_du_true_eq (ymd2ord y 1 1) (ymd2ord y 12 31)
    (by omega) (by omega) (by omega) (by omega), hsf, ?_, ?_⟩
  · exact hsf.imp (fun hab => Nat.ne_of_lt hab)
  · intro o ho
    have h1 := List.mem_filter.mp ho
    have h2 := List.mem_filter.mp h1.1
    have hcond := h1.2
    simp only [Bool.and_eq_true, decide_eq_true_eq] at hcond
    have hw := (busPred_iff o).mp h2.2
    exact ⟨hw.1, hcond.1, hcond.2⟩

/-- C9: a fixed rule resolves to `None` exactly when the year lies outside its
validity window, and otherwise to the fixed month/day in that year; in
particular Nov 20 is a holiday in 2024 but not in 2023, so
`is_business_day(2024-11-20)` is `false` while `is_business_day(2023-11-20)`
is `true`. -/
theorem C9_fixed_rule (m d y : Nat) (sy ey : Option Nat)
    (hm : 1 ≤ m ∧ m ≤ 12) (hd : 1 ≤ d ∧ d ≤ daysInMonth y m)
    (hy : 1 ≤ y ∧ y ≤ 9999) :
    (calcForYear (Holiday.fixed m d sy ey) y = none ↔
      ((∃ s, sy = some s ∧ y < s) ∨ (∃ e0, ey = some e0 ∧ e0 < y))) ∧
    (calcForYear (Holiday.fixed m d sy ey) y = none ∨
      calcForYear (Holiday.fixed m d sy ey) y = some (ymd2ord y m d)) ∧
    is_du (ymd2ord 2024 11 20) = .ok false ∧
    is_du (ymd2ord 2023 11 20) = .ok true := by
  refine ⟨?_, ?_, by decide, by decide⟩
  · simp only [calcForYear]
    rcases sy with _ | s <;> rcases ey with _ | e0 <;>
      split_ifs <;> simp_all
  · simp only [calcForYear]
    split_ifs <;> simp

/-- C10: for every year the Meeus/Jones/Butcher computation yields month 3 or
4 with a day that is legal for that month, and the resulting Easter ordinal
lies inside the year (between Mar 15 and Apr 26), so building the Easter date
and the registry's Easter-relative dates never fails. -/
theorem C10_easter_legal (y : Nat) :
    (pascoaMonth y = 3 ∨ pascoaMonth y = 4) ∧
    1 ≤ pascoaDay y ∧ pascoaDay y ≤ daysInMonth y (pascoaMonth y) ∧
    daysBeforeYear y + 74 + leapAdj y ≤ calcPascoa y ∧
    calcPascoa y ≤ daysBeforeYear y + 116 + leapAdj y := by
  have hp := calcPascoa_range y
  rcases pascoa_month_day y with ⟨hM, hd1, hd2, hd3⟩ | ⟨hM, hd1, hd2, hd3⟩ <;>
    rw [hM] <;>
    refine ⟨by omega, by omega, ?_, hp.1, hp.2⟩ <;>
    simp only [daysInMonth] <;>
    norm_num <;>
    omega

/-- Witness for C3's amended theorem at 2023-12-15 and 2023-12-22. -/
theorem C3_diff_amended_witness :
    ((738869 : Nat) ≠ 738876 →
      ∃ v : Int, diff 738869 738876 = .ok v ∧ diff 738876 738869 = .ok (-v)) ∧
    diff 738869 738869 = .ok (if busPred 738869 = true then 0 else 1) :=
  C3_diff_amended 738869 738876 (by decide) (by decide) (by decide) (by decide)

/-- Witness for C4's amended theorem at year 2023. -/
theorem C4_holidays_amended_witness :
    year_holidays 2023 = .ok (holidaysOf 2023 NATIONAL_HOLIDAYS) ∧
    ((holidaysOf 2023 NATIONAL_HOLIDAYS).Sorted (· ≤ ·) ↔
      calcPascoa 2023 ≤ ymd2ord 2023 4 23) :=
  C4_holidays_amended 2023 (by decide) (by decide)

/-- Witness for C5 at the business day 2023-12-15 with offset 3. -/
theorem C5_window_safety_witness :
    delta_du 738869 3 ≠ .error .offsetOutOfRange ∧
    ∀ e, delta_du 738869 3 = .ok e →
      (busPred e = true ∧ (rank e : Int) = (rank 738869 : Int) + 3) :=
  C5_window_safety 738869 3 (by decide) (by decide) (by decide) (by decide) (by decide)

/-- Witness for C2 at the business day 2023-12-15 with offset 2. -/
theorem C2_offset_roundtrip_witness :
    ∃ e, delta_du 738869 2 = .ok e ∧ delta_du e (-2) = .ok 738869 :=
  C2_offset_roundtrip 738869 2 (by decide) (by decide) (by decide) (by decide)

/-- Witness for C7 on the window 2023-12-01 .. 2023-12-22. -/
theorem C7_range_semantics_witness :
    (∃ l, range_du 738855 738876 false = .ok l ∧ l.Sorted (· < ·) ∧
      ∀ o, o ∈ l ↔ (busPred o = true ∧ 738855 ≤ o ∧ o < 738876)) ∧
    (∃ l, range_du 738855 738876 true = .ok l ∧ l.Sorted (· < ·) ∧
      ∀ o, o ∈ l ↔ (busPred o = true ∧ 738855 ≤ o ∧ o ≤ 738876)) :=
  C7_range_semantics 738855 738876 (by decide) (by decide) (by decide) (by decide)

/-- Witness for C8 at year 2023. -/
theorem C8_year_dus_invariants_witness :
    ∃ l, year_dus 2023 = .ok l ∧ l.Sorted (· < ·) ∧ l.Nodup ∧
      ∀ o ∈ l, weekday o < 5 ∧ ymd2ord 2023 1 1 ≤ o ∧ o ≤ ymd2ord 2023 12 31 :=
  C8_year_dus_invariants 2023 (by decide) (by decide)

/-- Witness for C9 on the Black Awareness Day rule evaluated at 2023. -/
theorem C9_fixed_rule_witness :
    (calcForYear (Holiday.fixed 11 20 (some 2024) none) 2023 = none ↔
      ((∃ s, (some 2024 : Option Nat) = some s ∧ 2023 < s) ∨
        (∃ e0, (none : Option Nat) = some e0 ∧ e0 < 2023))) ∧
    (calcForYear (Holiday.fixed 11 20 (some 2024) none) 2023 = none ∨
      calcForYear (Holiday.fixed 11 20 (some 2024) none) 2023 =
        some (ymd2ord 2023 11 20)) ∧
    is_du (ymd2ord 2024 11 20) = .ok false ∧
    is_du (ymd2ord 2023 11 20) = .ok true :=
  C9_fixed_rule 11 20 2023 (some 2024) none (by decide) (by decide) (by decide)

end Finbr
